import Mathlib

/-!
Verification development for the liar's-bar room engine (`main.py`).

The Python source is shallowly embedded: dataclasses become structures,
Python `dict[str, T]` becomes an association list `List (String × T)`
(first binding wins, assignment replaces in place or appends — matching
insertion-ordered Python dicts), wall-clock floats become `Rat`, and the
sources of randomness (`random.shuffle`, `random.choice`) and the clock
(`time.time()`) are threaded in explicitly through an `Env` value.
Chat-side message delivery is abstracted to a list of `Msg` tags, one
per `outbox.append` in the source.
-/

namespace LiarsBar

/-- Card face code `CARD_SUN = "sun"` from the source constants. -/
def CARD_SUN : String := "sun"

/-- Card face code `CARD_MOON = "moon"`. -/
def CARD_MOON : String := "moon"

/-- Card face code `CARD_STAR = "star"`. -/
def CARD_STAR : String := "star"

/-- Wild card face code `CARD_MAGIC = "magic"`. -/
def CARD_MAGIC : String := "magic"

/-- `TARGET_CARDS = [CARD_SUN, CARD_MOON, CARD_STAR]`. -/
def TARGET_CARDS : List String := [CARD_SUN, CARD_MOON, CARD_STAR]

/-- Wire colors `WIRE_COLORS = [红, 蓝, 黄]`. -/
def WIRE_RED : String := "红"

/-- Wire color `蓝`. -/
def WIRE_BLUE : String := "蓝"

/-- Wire color `黄`. -/
def WIRE_YELLOW : String := "黄"

/-- `WIRE_COLORS` list, in source order. -/
def WIRE_COLORS : List String := [WIRE_RED, WIRE_BLUE, WIRE_YELLOW]

/-- Phase constant `PHASE_WAITING = "waiting"`. -/
def PHASE_WAITING : String := "waiting"

/-- Phase constant `PHASE_PLAYING = "playing"`. -/
def PHASE_PLAYING : String := "playing"

/-- Phase constant `PHASE_AWAIT_WIRE = "await_wire"`. -/
def PHASE_AWAIT_WIRE : String := "await_wire"

/-- `FIXED_HAND_SIZE = 5`. -/
def FIXED_HAND_SIZE : Int := 5

/-- `DECK_DISTRIBUTION_WEIGHTS = {sun: 3, moon: 3, star: 3, magic: 1}` as an
association list in the source's insertion order. -/
def DECK_DISTRIBUTION_WEIGHTS : List (String × Nat) :=
  [(CARD_SUN, 3), (CARD_MOON, 3), (CARD_STAR, 3), (CARD_MAGIC, 1)]

/-- Python dataclass `PlayerState` (one player scoped to a room). -/
structure PlayerState where
  user_id : String
  name : String
  is_ai : Bool
  ai_label : String
  alive : Bool
  hand : List String
  bomb_color : String
  wires_remaining : List String
  dm_reachable : Bool
  deriving DecidableEq, Repr

/-- Python dataclass `LastPlay` (the pending claim). -/
structure LastPlay where
  player_id : String
  cards : List String
  declared_target : String
  played_at : Rat
  deriving DecidableEq, Repr

/-- Python dataclass `RoomState`.  `players` is the insertion-ordered dict
`dict[str, PlayerState]`, embedded as an association list. -/
structure RoomState where
  room_id : String
  group_umo : String
  group_id : String
  platform_id : String
  bot_id : String
  owner_id : String
  owner_name : String
  phase : String
  created_at : Rat
  updated_at : Rat
  started_at : Rat
  round_no : Int
  dealer_cursor : Int
  players : List (String × PlayerState)
  order : List String
  target_card : String
  current_turn_user_id : String
  last_play : Option LastPlay
  pending_wire_user_id : String
  wire_options : List String
  wire_index_map : List (String × String)
  initial_player_count : Int
  fixed_hand_size : Int
  round_deck_total : Int
  round_deck_counts : List (String × Int)
  play_deadline_ts : Rat
  wire_deadline_ts : Rat
  action_token : Int
  ai_seq : Int
  deriving DecidableEq, Repr

/-- `dict.get(k)`: first binding for `k`, if any. -/
def alookup {α : Type} (m : List (String × α)) (k : String) : Option α :=
  match m with
  | [] => none
  | (k', v) :: rest => if k' = k then some v else alookup rest k

/-- `dict.get(k, d)`: lookup with default. -/
def alookupD {α : Type} (m : List (String × α)) (k : String) (d : α) : α :=
  (alookup m k).getD d

/-- In-place update of the value stored under an existing key (Python
`d[k].field = ...` mutations); keys not present are untouched. -/
def updatePlayer (ps : List (String × PlayerState)) (uid : String)
    (f : PlayerState → PlayerState) : List (String × PlayerState) :=
  ps.map (fun kv => (kv.1, if kv.1 = uid then f kv.2 else kv.2))

/-- Python dict assignment `d[k] = v`: replaces the existing binding in place,
else appends a new binding (insertion-ordered dict semantics). -/
def dictInsert {α : Type} (m : List (String × α)) (k : String) (v : α) :
    List (String × α) :=
  if (alookup m k).isSome then
    m.map (fun kv => (kv.1, if kv.1 = k then v else kv.2))
  else
    m ++ [(k, v)]

/-- The membership-and-alive test of `RoomState.alive_ids`
(`uid in self.players and self.players[uid].alive`). -/
def isAliveIn (players : List (String × PlayerState)) (uid : String) : Bool :=
  match alookup players uid with
  | some p => p.alive
  | none => false

/-- `RoomState.alive_ids`: sub-sequence of `order` whose players exist and are
alive. -/
def aliveIds (room : RoomState) : List String :=
  room.order.filter (isAliveIn room.players)

/-- `_next_alive_after`: the next alive member after `user_id` in rotation
order, or `none` when at most one player is alive. -/
def nextAliveAfter (room : RoomState) (user_id : String) : Option String :=
  let alive := aliveIds room
  if alive.length ≤ 1 then none
  else if user_id ∈ alive then
    let idx := alive.findIdx (fun x => x = user_id)
    some (alive.getD ((idx + 1) % alive.length) "")
  else some (alive.headD "")

/-! ### Deck builder (`_build_locked_deck_counts`) -/

/-- The clamp `max(3, min(5, int(start_player_count)))`. -/
def clampPlayers (n : Int) : Int := max 3 (min 5 n)

/-- Stable insertion of `x` into a list already sorted by `key` descending:
`x` goes after every earlier element whose key is `> key x` and before the
first whose key is `≤ key x` (so equal keys keep their original order, as
Python's stable `sorted(..., reverse=True)` does). -/
def insertDescBy (key : String → Nat) (x : String) : List String → List String
  | [] => [x]
  | y :: ys => if key x < key y then y :: insertDescBy key x ys
               else x :: y :: ys

/-- Stable descending sort by `key`, mirroring `sorted(cards, key=..., reverse=True)`. -/
def sortDescBy (key : String → Nat) : List String → List String
  | [] => []
  | x :: xs => insertDescBy key x (sortDescBy key xs)

/-- The remainder-distribution loop of `_build_locked_deck_counts`: while
`remain > 0`, add one card to `order[idx % len(order)]`. -/
def distributeRemainder (order : List String) (counts : String → Nat) :
    Nat → Nat → (String → Nat)
  | 0, _ => counts
  | r + 1, idx =>
      let c := order.getD (idx % order.length) ""
      distributeRemainder order (fun c' => if c' = c then counts c' + 1 else counts c') r (idx + 1)

/-- Core of `_build_locked_deck_counts`, given the already clamped player
count.  `value = total * weight / weight_sum` is computed here in exact
arithmetic: for every reachable total (15, 20 or 25) the Python float
expression `total * (w / 10)` is exactly the rational value (4.5, 1.5, 6.0,
2.0, 7.5 or 2.5), so `int(value)` is the rational floor (`Nat` division) and
the fractional remainders `raw[c] - counts[c]` compare exactly as the
numerators `(total * w) % 10`. -/
def buildDeckCountsCore (players : Nat) : List (String × Int) :=
  let total := players * 5
  let cards := [CARD_SUN, CARD_MOON, CARD_STAR, CARD_MAGIC]
  let weight_sum := (DECK_DISTRIBUTION_WEIGHTS.map (·.2)).sum
  let w := fun c => alookupD DECK_DISTRIBUTION_WEIGHTS c 0
  let base := fun c => total * w c / weight_sum
  let fracNum := fun c => total * w c % weight_sum
  let remain := total - (cards.map base).sum
  let order := sortDescBy fracNum cards
  let final := distributeRemainder order base remain 0
  cards.map (fun c => (c, (final c : Int)))

/-- `_build_locked_deck_counts(start_player_count)`. -/
def buildLockedDeckCounts (n : Int) : List (String × Int) :=
  buildDeckCountsCore (clampPlayers n).toNat

/-- Total number of cards in a locked composition. -/
def deckCountsSum (counts : List (String × Int)) : Int :=
  (counts.map (·.2)).sum

/-- The counts `_build_round_deck` expands (`room.round_deck_counts or
_build_locked_deck_counts(room.initial_player_count or len(room.order) or 4)`;
an empty dict / zero int is falsy). -/
def roundDeckCountsOf (room : RoomState) : List (String × Int) :=
  if room.round_deck_counts = [] then
    buildLockedDeckCounts
      (if room.initial_player_count = 0 then
        (if room.order.length = 0 then 4 else (room.order.length : Int))
       else room.initial_player_count)
  else room.round_deck_counts

/-- Length of the flat deck `_build_round_deck` produces: `[sun]*n₁ ++ [moon]*n₂
++ [star]*n₃ ++ [magic]*n₄` (negative stored counts repeat zero times), before
the length-preserving `random.shuffle`. -/
def roundDeckLen (room : RoomState) : Nat :=
  let counts := roundDeckCountsOf room
  (alookupD counts CARD_SUN 0).toNat + (alookupD counts CARD_MOON 0).toNat
    + (alookupD counts CARD_STAR 0).toNat + (alookupD counts CARD_MAGIC 0).toNat

/-! ### Transition results, configuration, environment -/

/-- One tag per `update.outbox.append(...)` in the engine functions; the
chat-side text/image content is out of scope. -/
inductive Msg where
  | playAnnounce : Msg
  | autoChallengeNotice : Msg
  | challengeReveal : Bool → Bool → Msg
  | anomalyNotice : Msg
  | wirePhaseEnter : String → List String → Msg
  | explodedNotice : String → String → Msg
  | safePassNotice : String → String → Msg
  | deckCorruptNotice : Msg
  | roundStartNotice : Int → String → Msg
  | winnerNotice : Option String → Msg
  | playTimeoutNotice : String → Msg
  deriving DecidableEq, Repr

/-- Python dataclass `RoundUpdate` (outbox + private-hand refresh list). -/
structure RoundUpdate where
  outbox : List Msg
  hand_push : List String
  deriving DecidableEq, Repr

/-- Result of one locked engine transition: the mutated room, whether the room
was removed from the registry (`_drop_room_locked`), and the outbound update. -/
structure StepResult where
  room : RoomState
  closed : Bool
  update : RoundUpdate
  deriving DecidableEq, Repr

/-- A guard-failure return (`return update` with a fresh empty `RoundUpdate`
and no state change). -/
def noopResult (room : RoomState) : StepResult :=
  { room := room, closed := false, update := { outbox := [], hand_push := [] } }

/-- The plugin configuration values the engine reads (`self.conf`), after the
getters' clamping (`_play_timeout_seconds` etc. apply `max(1, ...)` at use). -/
structure Config where
  play_timeout_seconds : Int
  wire_timeout_seconds : Int
  ai_max_play_cards : Int
  deriving DecidableEq, Repr

/-- `_play_timeout_seconds` = `max(1, int(conf))`. -/
def playTimeoutOf (cfg : Config) : Int := max 1 cfg.play_timeout_seconds

/-- `_wire_timeout_seconds` = `max(1, int(conf))`. -/
def wireTimeoutOf (cfg : Config) : Int := max 1 cfg.wire_timeout_seconds

/-- `_ai_max_play_cards` = `max(1, int(conf))`. -/
def aiMaxPlayCardsOf (cfg : Config) : Nat := (max 1 cfg.ai_max_play_cards).toNat

/-- The ambient effects a transition consumes: `time.time()` (`now`), the
shuffled deck `_build_round_deck` returns (`deck`, a permutation of the locked
composition's expansion), and `random.choice(TARGET_CARDS)` (`target`). -/
structure Env where
  now : Rat
  deck : List String
  target : String
  deriving DecidableEq, Repr

/-! ### Engine transitions (the `*_locked` functions) -/

/-- `_announce_winner_and_close_locked`: announce the first alive player (or
no survivor) and drop the room from the registry. -/
def announceWinnerAndClose (room : RoomState) : StepResult :=
  { room := room, closed := true,
    update := { outbox := [Msg.winnerNotice (aliveIds room).head?], hand_push := [] } }

/-- The hand-clearing loop of `_start_new_round_locked`
(`for uid in room.order: if uid in room.players: ... hand = []`). -/
def clearOrderHands (room : RoomState) : List (String × PlayerState) :=
  room.players.map (fun kv => (kv.1, if kv.1 ∈ room.order then { kv.2 with hand := [] } else kv.2))

/-- The dealing loop: each alive player takes `hand_size` cards off the front
of the shuffled deck. -/
def dealHands (hand_size : Nat) : List String → List String →
    List (String × PlayerState) → List (String × PlayerState)
  | [], _, ps => ps
  | uid :: rest, deck, ps =>
      dealHands hand_size rest (deck.drop hand_size)
        (updatePlayer ps uid (fun p => { p with hand := deck.take hand_size }))

/-- `max(1, int(room.fixed_hand_size or FIXED_HAND_SIZE))` (`0` is falsy). -/
def handSizeOf (room : RoomState) : Nat :=
  (max 1 (if room.fixed_hand_size = 0 then FIXED_HAND_SIZE else room.fixed_hand_size)).toNat

/-- `_start_new_round_locked`: finalize if ≤1 player is alive; otherwise clear
hands, deal `env.deck`, pick `env.target`, advance the dealer cursor to the
round's starter, reset claim/wire state, bump the action token and arm the
play deadline.  The deck-shortage branch drops the room. -/
def startNewRound (cfg : Config) (env : Env) (room : RoomState) : StepResult :=
  let alive := aliveIds room
  if alive.length ≤ 1 then announceWinnerAndClose room
  else
    let players1 := clearOrderHands room
    let hand_size := handSizeOf room
    let need := hand_size * alive.length
    if env.deck.length < need then
      { room := { room with players := players1 }, closed := true,
        update := { outbox := [Msg.deckCorruptNotice], hand_push := [] } }
    else
      let players2 := dealHands hand_size alive env.deck players1
      let starter := alive.getD (room.dealer_cursor.emod (alive.length : Int)).toNat ""
      let room' := { room with
        players := players2,
        round_no := room.round_no + 1,
        target_card := env.target,
        dealer_cursor := room.dealer_cursor + 1,
        current_turn_user_id := starter,
        last_play := none,
        phase := PHASE_PLAYING,
        pending_wire_user_id := "",
        wire_options := [],
        wire_index_map := [],
        wire_deadline_ts := 0,
        action_token := room.action_token + 1,
        play_deadline_ts := env.now + (playTimeoutOf cfg : Rat) }
      { room := room', closed := false,
        update := { outbox := [Msg.roundStartNotice (room.round_no + 1) env.target],
                    hand_push := alive.filter (fun uid =>
                      match alookup players2 uid with
                      | some p => ¬p.is_ai
                      | none => false) } }

/-- The bluff test of `_resolve_challenge_locked`:
`any(card not in {room.target_card, CARD_MAGIC} for card in last.cards)`. -/
def isLie (target : String) (cards : List String) : Bool :=
  cards.any (fun c => decide (c ≠ target ∧ c ≠ CARD_MAGIC))

/-- `_resolve_challenge_locked`: reveal the pending claim, punish claimant or
challenger per the bluff rule, and either enter the wire-cut phase (arming the
wire deadline, bumping the action token) or — if the punished player is missing
or already dead — log the anomaly and start a fresh round. -/
def resolveChallenge (cfg : Config) (env : Env) (room : RoomState)
    (challenger_id : String) (auto : Bool) : StepResult :=
  match room.last_play with
  | none => noopResult room
  | some last =>
    let liar := isLie room.target_card last.cards
    let punished_id := if liar then last.player_id else challenger_id
    let reveal := Msg.challengeReveal auto liar
    match alookup room.players punished_id with
    | none =>
      let nxt := startNewRound cfg env room
      { room := nxt.room, closed := nxt.closed,
        update := { outbox := reveal :: Msg.anomalyNotice :: nxt.update.outbox,
                    hand_push := nxt.update.hand_push } }
    | some punished =>
      if punished.alive = false then
        let nxt := startNewRound cfg env room
        { room := nxt.room, closed := nxt.closed,
          update := { outbox := reveal :: Msg.anomalyNotice :: nxt.update.outbox,
                      hand_push := nxt.update.hand_push } }
      else
        let options := WIRE_COLORS.filter (fun c => c ∈ punished.wires_remaining)
        let room' := { room with
          phase := PHASE_AWAIT_WIRE,
          pending_wire_user_id := punished_id,
          wire_options := options,
          wire_index_map := (List.range options.length).zip options |>.map
            (fun iv => (toString (iv.1 + 1), iv.2)),
          play_deadline_ts := 0,
          action_token := room.action_token + 1,
          wire_deadline_ts := env.now + (wireTimeoutOf cfg : Rat) }
        { room := room', closed := false,
          update := { outbox := [reveal, Msg.wirePhaseEnter punished_id options],
                      hand_push := [] } }

/-- The mutation `_apply_wire_cut_locked` applies to the cutting player:
remove the cut color from the remaining wires (when present), then explode —
`alive = False`, hand cleared — iff the color is the bomb color or only one
option was offered (`option_count` is `len(options)` at entry). -/
def playerAfterCut (p : PlayerState) (color : String) (option_count : Nat) : PlayerState :=
  let player1 := if color ∈ p.wires_remaining then
      { p with wires_remaining := p.wires_remaining.erase color }
    else p
  if color = p.bomb_color ∨ option_count = 1 then
    { player1 with alive := false, hand := [] }
  else player1

/-- The room right after a wire cut resolves: the cutting player replaced and
the wire phase reset to Playing-adjacent bookkeeping. -/
def roomAfterCut (room : RoomState) (user_id : String) (p2 : PlayerState) : RoomState :=
  { room with
    players := updatePlayer room.players user_id (fun _ => p2),
    phase := PHASE_PLAYING,
    pending_wire_user_id := "",
    wire_options := [],
    wire_index_map := [],
    wire_deadline_ts := 0 }

/-- `_apply_wire_cut_locked`: validate actor and color, remove the cut wire,
explode iff the color is the bomb color or it was the last option, reset the
wire phase, then finalize or start the next round. -/
def applyWireCut (cfg : Config) (env : Env) (room : RoomState) (user_id : String)
    (color : String) (by_timeout : Bool) : StepResult :=
  match alookup room.players user_id with
  | none => noopResult room
  | some player =>
    let options := room.wire_options
    if color ∉ options then noopResult room
    else
      let exploded := color = player.bomb_color ∨ options.length = 1
      let room1 := roomAfterCut room user_id (playerAfterCut player color options.length)
      let msg := if exploded then Msg.explodedNotice user_id color
                 else Msg.safePassNotice user_id color
      if (aliveIds room1).length ≤ 1 then
        let fin := announceWinnerAndClose room1
        { room := fin.room, closed := fin.closed,
          update := { outbox := msg :: fin.update.outbox, hand_push := fin.update.hand_push } }
      else
        let nxt := startNewRound cfg env room1
        { room := nxt.room, closed := nxt.closed,
          update := { outbox := msg :: nxt.update.outbox, hand_push := nxt.update.hand_push } }

/-- Ascending insertion used to model Python `sorted(values)`. -/
def insertAsc (x : Nat) : List Nat → List Nat
  | [] => [x]
  | y :: ys => if y ≤ x then y :: insertAsc x ys else x :: y :: ys

/-- Python `sorted(values)` on a list of positive indices. -/
def sortAsc : List Nat → List Nat
  | [] => []
  | x :: xs => insertAsc x (sortAsc xs)

/-- `_normalize_indices(values, max_size, max_cards)` restricted to integer
input (the engine call sites pass ints): reject empties, duplicates,
non-positive or out-of-bounds indices, and over-long selections; return the
sorted indices. -/
def normalizeIndices (values : List Int) (max_size : Nat) (max_cards : Nat) :
    Option (List Nat) :=
  if values = [] then none
  else if ¬values.Nodup then none
  else if values.any (fun v => v ≤ 0) then none
  else if values.any (fun v => v > (max_size : Int)) then none
  else if values.length > max_cards then none
  else some (sortAsc (values.map Int.toNat))

/-- The hand left after `for idx in sorted(normalized, reverse=True):
player.hand.pop(idx - 1)` (indices are 1-based and `normalized` is sorted
ascending, so its reverse is the descending order Python pops in). -/
def handAfterPlay (normalized : List Nat) (hand : List String) : List String :=
  normalized.reverse.foldl (fun h i => h.eraseIdx (i - 1)) hand

/-- `played_cards = [player.hand[i - 1] for i in normalized]`. -/
def playedCardsOf (p : PlayerState) (normalized : List Nat) : List String :=
  normalized.map (fun i => p.hand.getD (i - 1) "")

/-- The room state right after `_apply_play_locked` removes the played cards
and records the pending claim, before the turn advances. -/
def roomAfterPlay (env : Env) (room : RoomState) (user_id : String)
    (p : PlayerState) (normalized : List Nat) : RoomState :=
  { room with
    players := updatePlayer room.players user_id
      (fun q => { q with hand := handAfterPlay normalized p.hand }),
    last_play := some { player_id := user_id, cards := playedCardsOf p normalized,
                        declared_target := room.target_card, played_at := env.now } }

/-- `_apply_play_locked`: validate actor and indices, remove the played cards,
record the claim, then either auto-challenge (hand emptied), advance the turn
with a fresh play deadline, or finalize when no other player is alive. -/
def applyPlay (cfg : Config) (env : Env) (room : RoomState) (user_id : String)
    (indices : List Int) : StepResult :=
  match alookup room.players user_id with
  | none => noopResult room
  | some player =>
    if player.alive = false then noopResult room
    else
      let max_cards := if player.is_ai then aiMaxPlayCardsOf cfg else player.hand.length
      match normalizeIndices indices player.hand.length max_cards with
      | none => noopResult room
      | some normalized =>
        let newHand := handAfterPlay normalized player.hand
        let roomA := roomAfterPlay env room user_id player normalized
        match nextAliveAfter roomA user_id with
        | none => announceWinnerAndClose roomA
        | some next_uid =>
          if newHand.length = 0 then
            let roomB := { roomA with current_turn_user_id := next_uid }
            let ch := resolveChallenge cfg env roomB next_uid true
            { room := ch.room, closed := ch.closed,
              update := { outbox := Msg.playAnnounce :: Msg.autoChallengeNotice
                            :: ch.update.outbox,
                          hand_push := ch.update.hand_push } }
          else
            let roomB := { roomA with
              current_turn_user_id := next_uid,
              phase := PHASE_PLAYING,
              pending_wire_user_id := "",
              wire_options := [],
              wire_index_map := [],
              wire_deadline_ts := 0,
              action_token := roomA.action_token + 1,
              play_deadline_ts := env.now + (playTimeoutOf cfg : Rat) }
            { room := roomB, closed := false,
              update := { outbox := [Msg.playAnnounce],
                          hand_push := if player.is_ai then [] else [user_id] } }

/-- The elimination applied by a fired play deadline (`player.alive = False`,
`player.hand = []`, `room.play_deadline_ts = 0`). -/
def elimPlayer (room : RoomState) (uid : String) : RoomState :=
  { room with
    players := updatePlayer room.players uid (fun p => { p with alive := false, hand := [] }),
    play_deadline_ts := 0 }

/-- `_handle_play_timeout(room_id, token, target_uid)` given the room the id
resolves to: every re-validation failure (wrong phase, stale token, different
turn holder, deadline not yet due, missing or dead player) is a silent no-op;
otherwise the inactive player is eliminated outright and the match is
finalized or a new round starts. -/
def handlePlayTimeout (cfg : Config) (env : Env) (room : RoomState) (token : Int)
    (target_uid : String) : StepResult :=
  if room.phase ≠ PHASE_PLAYING then noopResult room
  else if room.action_token ≠ token then noopResult room
  else if room.current_turn_user_id ≠ target_uid then noopResult room
  else if env.now < room.play_deadline_ts - (1 / 5 : Rat) then noopResult room
  else
    match alookup room.players target_uid with
    | none => noopResult room
    | some player =>
      if player.alive = false then noopResult room
      else
        let room1 := elimPlayer room target_uid
        let msg := Msg.playTimeoutNotice target_uid
        let base :=
          if (aliveIds room1).length ≤ 1 then announceWinnerAndClose room1
          else startNewRound cfg env room1
        { room := { base.room with updated_at := env.now }, closed := base.closed,
          update := { outbox := msg :: base.update.outbox, hand_push := base.update.hand_push } }

/-- `_handle_wire_timeout(room_id, token, target_uid)`: stale firings are
silent no-ops; an empty options list repairs via a fresh round; otherwise the
randomly picked color (`picked`, standing for `random.choice`) is applied as a
timeout wire cut. -/
def handleWireTimeout (cfg : Config) (env : Env) (room : RoomState) (token : Int)
    (target_uid : String) (picked : String) : StepResult :=
  if room.phase ≠ PHASE_AWAIT_WIRE then noopResult room
  else if room.action_token ≠ token then noopResult room
  else if room.pending_wire_user_id ≠ target_uid then noopResult room
  else if env.now < room.wire_deadline_ts - (1 / 5 : Rat) then noopResult room
  else if room.wire_options = [] then startNewRound cfg env room
  else
    let res := applyWireCut cfg env room target_uid picked true
    { room := { res.room with updated_at := env.now }, closed := res.closed,
      update := res.update }

/-! ### Room registry (`self.rooms`, `self.player_room_index`) -/

/-- The registry the plugin owns: `room_id → RoomState` and the player → room
membership index (humans only). -/
structure Registry where
  rooms : List (String × RoomState)
  index : List (String × String)
  deriving DecidableEq, Repr

/-- One AI identity as produced by `_alloc_ai_identity_locked` together with
the `random.choice(WIRE_COLORS)` bomb color assigned right after; the random
allocation itself is abstracted into these provided values. -/
structure AISeed where
  uid : String
  name : String
  bomb : String
  deriving DecidableEq, Repr

/-- The `PlayerState(...)` literal `_cmd_add_ai` constructs for one AI seat
(dataclass defaults: alive, empty hand, full wire set). -/
def mkAIPlayer (s : AISeed) : PlayerState :=
  { user_id := s.uid, name := s.name, is_ai := true, ai_label := s.name,
    alive := true, hand := [], bomb_color := s.bomb,
    wires_remaining := WIRE_COLORS, dm_reachable := true }

/-- The seat-adding loop of `_cmd_add_ai`: each seat is inserted into
`room.players` and appended to `room.order`; the membership index is never
touched. -/
def addAISeats (room : RoomState) (seats : List AISeed) : RoomState :=
  seats.foldl
    (fun r s => { r with
      players := dictInsert r.players s.uid (mkAIPlayer s),
      order := r.order ++ [s.uid] })
    room

/-- The locked body of `_cmd_add_ai` after the `ai_enabled` / count parsing
checks: guard on room existence, Waiting phase, ownership, at least one human
and free seats, then add `min(count, 5 - len(order))` AI seats. -/
def cmdAddAI (reg : Registry) (room_id user_id : String) (count : Nat)
    (seeds : List AISeed) : Registry :=
  match alookup reg.rooms room_id with
  | none => reg
  | some room =>
    if room.phase ≠ PHASE_WAITING then reg
    else if user_id ≠ room.owner_id then reg
    else
      let human_count := (room.order.filter (fun uid =>
        match alookup room.players uid with
        | some p => ¬p.is_ai
        | none => false)).length
      if human_count = 0 then reg
      else
        let available := 5 - room.order.length
        if available = 0 then reg
        else
          let add_n := min count available
          let room' := addAISeats room (seeds.take add_n)
          { reg with rooms := dictInsert reg.rooms room_id room' }

/-- The index-rebuilding loop of `_load_state` for one room: every member of
`order` with an existing, non-AI player record is mapped to the room id. -/
def rebuildIndexRoom (idx : List (String × String)) (room : RoomState) :
    List (String × String) :=
  room.order.foldl
    (fun acc uid =>
      match alookup room.players uid with
      | some p => if p.is_ai then acc else dictInsert acc uid room.room_id
      | none => acc)
    idx

/-- `_load_state`'s `player_room_index` rebuild: start from an empty index and
process every loaded room (never trusting the stored index). -/
def rebuildIndex (rooms : List (String × RoomState)) : List (String × String) :=
  rooms.foldl (fun acc kv => rebuildIndexRoom acc kv.2) []

/-! ### Persistence snapshots (`to_dict` / `from_dict`) -/

/-- Python `x or []` on a list value (an empty list is falsy). -/
def orEmptyList {α : Type} (l : List α) : List α :=
  if l.isEmpty then [] else l

/-- Python `x or {}` on a dict value, in the association-list embedding. -/
def orEmptyMap {α : Type} (m : List (String × α)) : List (String × α) :=
  if m.isEmpty then [] else m

/-- The dictionary `PlayerState.to_dict` emits (typed shape of the JSON
object; every key is always present). -/
structure PlayerDict where
  user_id : String
  name : String
  is_ai : Bool
  ai_label : String
  alive : Bool
  hand : List String
  bomb_color : String
  wires_remaining : List String
  dm_reachable : Bool
  deriving DecidableEq, Repr

/-- `PlayerState.to_dict`. -/
def playerToDict (p : PlayerState) : PlayerDict :=
  { user_id := p.user_id, name := p.name, is_ai := p.is_ai, ai_label := p.ai_label,
    alive := p.alive, hand := p.hand, bomb_color := p.bomb_color,
    wires_remaining := p.wires_remaining, dm_reachable := p.dm_reachable }

/-- `PlayerState.from_dict` on a snapshot that carries every key (as
`to_dict` output does); `list(x or [])` keeps falsy lists empty. -/
def playerFromDict (d : PlayerDict) : PlayerState :=
  { user_id := d.user_id, name := d.name, is_ai := d.is_ai, ai_label := d.ai_label,
    alive := d.alive, hand := orEmptyList d.hand, bomb_color := d.bomb_color,
    wires_remaining := orEmptyList d.wires_remaining, dm_reachable := d.dm_reachable }

/-- The dictionary `LastPlay.to_dict` emits. -/
structure LastPlayDict where
  player_id : String
  cards : List String
  declared_target : String
  played_at : Rat
  deriving DecidableEq, Repr

/-- `LastPlay.to_dict`. -/
def lastPlayToDict (lp : LastPlay) : LastPlayDict :=
  { player_id := lp.player_id, cards := lp.cards,
    declared_target := lp.declared_target, played_at := lp.played_at }

/-- `LastPlay.from_dict`. -/
def lastPlayFromDict (d : LastPlayDict) : LastPlay :=
  { player_id := d.player_id, cards := orEmptyList d.cards,
    declared_target := d.declared_target, played_at := d.played_at }

/-- The dictionary `RoomState.to_dict` emits. -/
structure RoomDict where
  room_id : String
  group_umo : String
  group_id : String
  platform_id : String
  bot_id : String
  owner_id : String
  owner_name : String
  phase : String
  created_at : Rat
  updated_at : Rat
  started_at : Rat
  round_no : Int
  dealer_cursor : Int
  players : List (String × PlayerDict)
  order : List String
  target_card : String
  current_turn_user_id : String
  last_play : Option LastPlayDict
  pending_wire_user_id : String
  wire_options : List String
  wire_index_map : List (String × String)
  initial_player_count : Int
  fixed_hand_size : Int
  round_deck_total : Int
  round_deck_counts : List (String × Int)
  play_deadline_ts : Rat
  wire_deadline_ts : Rat
  action_token : Int
  ai_seq : Int
  deriving DecidableEq, Repr

/-- `RoomState.to_dict`. -/
def roomToDict (r : RoomState) : RoomDict :=
  { room_id := r.room_id, group_umo := r.group_umo, group_id := r.group_id,
    platform_id := r.platform_id, bot_id := r.bot_id, owner_id := r.owner_id,
    owner_name := r.owner_name, phase := r.phase, created_at := r.created_at,
    updated_at := r.updated_at, started_at := r.started_at, round_no := r.round_no,
    dealer_cursor := r.dealer_cursor,
    players := r.players.map (fun kv => (kv.1, playerToDict kv.2)),
    order := r.order, target_card := r.target_card,
    current_turn_user_id := r.current_turn_user_id,
    last_play := r.last_play.map lastPlayToDict,
    pending_wire_user_id := r.pending_wire_user_id, wire_options := r.wire_options,
    wire_index_map := r.wire_index_map, initial_player_count := r.initial_player_count,
    fixed_hand_size := r.fixed_hand_size, round_deck_total := r.round_deck_total,
    round_deck_counts := r.round_deck_counts, play_deadline_ts := r.play_deadline_ts,
    wire_deadline_ts := r.wire_deadline_ts, action_token := r.action_token,
    ai_seq := r.ai_seq }

/-- `RoomState.from_dict` on a snapshot carrying every key: falsy lists/dicts
collapse to empty, every `players` value is a dict so the `isinstance` filter
keeps all of them, and `last_play` is rebuilt when present. -/
def roomFromDict (d : RoomDict) : RoomState :=
  { room_id := d.room_id, group_umo := d.group_umo, group_id := d.group_id,
    platform_id := d.platform_id, bot_id := d.bot_id, owner_id := d.owner_id,
    owner_name := d.owner_name, phase := d.phase, created_at := d.created_at,
    updated_at := d.updated_at, started_at := d.started_at, round_no := d.round_no,
    dealer_cursor := d.dealer_cursor,
    players := d.players.map (fun kv => (kv.1, playerFromDict kv.2)),
    order := orEmptyList d.order, target_card := d.target_card,
    current_turn_user_id := d.current_turn_user_id,
    last_play := d.last_play.map lastPlayFromDict,
    pending_wire_user_id := d.pending_wire_user_id,
    wire_options := orEmptyList d.wire_options,
    wire_index_map := orEmptyMap d.wire_index_map,
    initial_player_count := d.initial_player_count,
    fixed_hand_size := d.fixed_hand_size, round_deck_total := d.round_deck_total,
    round_deck_counts := orEmptyMap d.round_deck_counts,
    play_deadline_ts := d.play_deadline_ts, wire_deadline_ts := d.wire_deadline_ts,
    action_token := d.action_token, ai_seq := d.ai_seq }

/-! ### Snapshot repair (`_normalize_room_state`) -/

/-- First-occurrence deduplication with an accumulated `seen` set, as the
order-cleaning loop's `seen` bookkeeping does. -/
def dedupKeepFirst (seen : List String) : List String → List String
  | [] => []
  | x :: xs => if x ∈ seen then dedupKeepFirst seen xs
               else x :: dedupKeepFirst (x :: seen) xs

/-- The order-cleaning loop: keep each member of `order` that has a player
record, first occurrence only. -/
def cleanedOrder (room : RoomState) : List String :=
  dedupKeepFirst [] (room.order.filter (fun uid => (alookup room.players uid).isSome))

/-- Decimal value of a digit run (for the regex capture `AI-(\d+)`). -/
def digitsVal (ds : List Char) : Nat :=
  ds.foldl (fun n c => n * 10 + (c.toNat - 48)) 0

/-- `re.search(r"AI-(\d+)", label)`: scan left to right for the literal
`AI-` followed by at least one digit; capture the maximal digit run. -/
def searchAINumAux : List Char → Option Nat
  | 'A' :: 'I' :: '-' :: rest =>
      let ds := rest.takeWhile Char.isDigit
      if ds.isEmpty then searchAINumAux ('I' :: '-' :: rest) else some (digitsVal ds)
  | _ :: rest => searchAINumAux rest
  | [] => none

/-- `re.search(r"AI-(\d+)", s)` on a string. -/
def searchAINum (s : String) : Option Nat :=
  searchAINumAux s.data

/-- State threaded through the AI-relabel loop: the (partially relabeled)
players dict, the `used_ai_names` set and `max_ai_seq`. -/
structure RelabelState where
  players : List (String × PlayerState)
  used : List String
  maxSeq : Int
  deriving DecidableEq, Repr

/-- One iteration of `_normalize_room_state`'s per-member loop: re-pin
`user_id` to the dict key, give every AI seat a fresh unique `AI-n` label and
mark it reachable, and blank `ai_label` on humans. -/
def relabelStep (st : RelabelState) (uid : String) : RelabelState :=
  match alookup st.players uid with
  | none => st
  | some p =>
    if p.is_ai then
      let label0 := if p.ai_label ≠ "" then p.ai_label else p.name
      let seq1 := match searchAINum label0 with
        | some n => max st.maxSeq (n : Int)
        | none => st.maxSeq
      let step2 := if ¬label0.startsWith "AI-" then
          (seq1 + 1, "AI-" ++ toString (seq1 + 1))
        else (seq1, label0)
      let step3 := if step2.2 ∈ st.used then
          (step2.1 + 1, "AI-" ++ toString (step2.1 + 1))
        else step2
      { players := updatePlayer st.players uid (fun q =>
          { q with
            user_id := uid, ai_label := step3.2, name := step3.2,
            dm_reachable := true }),
        used := step3.2 :: st.used,
        maxSeq := step3.1 }
    else
      { st with players := updatePlayer st.players uid (fun q =>
          { q with user_id := uid, ai_label := "" }) }

/-- The whole relabel loop over the cleaned order. -/
def relabelAll (players : List (String × PlayerState)) (order : List String)
    (seq0 : Int) : RelabelState :=
  order.foldl relabelStep { players := players, used := [], maxSeq := seq0 }

/-- The owner id/name the owner-repair steps of `_normalize_room_state`
settle on: a missing owner is replaced by the first member, then an AI owner
by the first human member (when one exists); the steps read `players` and
`order` unchanged and write only the owner fields, so the repair is computed
as a pair. -/
def ownerFixPair (room : RoomState) : String × String :=
  let p1 : String × String :=
    if (alookup room.players room.owner_id).isNone ∧ room.order ≠ [] then
      let newOwner := room.order.headD ""
      (newOwner, ((alookup room.players newOwner).map (fun p => p.name)).getD room.owner_name)
    else (room.owner_id, room.owner_name)
  match alookup room.players p1.1 with
  | some p =>
    if p.is_ai then
      match room.order.find? (fun uid =>
        match alookup room.players uid with
        | some q => ¬q.is_ai
        | none => false) with
      | some human =>
        (human, ((alookup room.players human).map (fun q => q.name)).getD p1.2)
      | none => p1
    else p1
  | none => p1

/-- The owner-repair steps of `_normalize_room_state`. -/
def fixOwner (room : RoomState) : RoomState :=
  { room with
    owner_id := (ownerFixPair room).1, owner_name := (ownerFixPair room).2 }

/-- The order-cleaning and AI-relabel prefix of `_normalize_room_state`:
an emptied order falls back to the player keys, then every member is
re-pinned/relabeled. -/
def relabeledRoom (room : RoomState) : RoomState :=
  let order1 := cleanedOrder room
  let order2 := if order1 = [] then room.players.map (fun kv => kv.1) else order1
  let st := relabelAll room.players order2 (max 0 room.ai_seq)
  { room with order := order2, players := st.players, ai_seq := st.maxSeq }

/-- Turn-holder repair: a non-empty turn holder with no player record is reset
to the first member of the order, or to empty when there are no members. -/
def fixTurnHolder (r : RoomState) : RoomState :=
  if r.current_turn_user_id ≠ "" ∧ (alookup r.players r.current_turn_user_id).isNone then
    { r with current_turn_user_id := r.order.headD "" }
  else r

/-- Dangling pending-wire repair. -/
def fixPendingWire (r : RoomState) : RoomState :=
  if r.pending_wire_user_id ≠ "" ∧ (alookup r.players r.pending_wire_user_id).isNone then
    { r with
      pending_wire_user_id := "", wire_options := [], wire_index_map := [],
      wire_deadline_ts := 0 }
  else r

/-- Dangling claim repair. -/
def fixLastPlay (r : RoomState) : RoomState :=
  match r.last_play with
  | some lp => if (alookup r.players lp.player_id).isNone then { r with last_play := none } else r
  | none => r

/-- Non-positive hand-size repair. -/
def fixHandSize (r : RoomState) : RoomState :=
  if r.fixed_hand_size ≤ 0 then { r with fixed_hand_size := FIXED_HAND_SIZE } else r

/-- Non-positive initial-player-count repair. -/
def fixInitialCount (r : RoomState) : RoomState :=
  if r.initial_player_count ≤ 0 ∧ r.order ≠ [] then
    { r with initial_player_count := (r.order.length : Int) }
  else r

/-- Missing locked-deck repair for an in-progress match. -/
def fixDeckCounts (r : RoomState) : RoomState :=
  if (r.round_deck_total ≤ 0 ∨ r.round_deck_counts = ([] : List (String × Int)))
      ∧ r.phase ≠ PHASE_WAITING then
    let base := if r.initial_player_count > 0 then r.initial_player_count
      else max 3 (min 5 (r.order.length : Int))
    let counts := buildLockedDeckCounts base
    { r with round_deck_counts := counts, round_deck_total := deckCountsSum counts }
  else r

/-- `_normalize_room_state`: clean the order, relabel AI seats, repair owner,
reset a dangling turn holder to the first member (or empty), clear dangling
wire-cut and claim state, restore a non-positive hand size and player count,
and rebuild a missing deck composition for an in-progress match. -/
def normalizeRoomState (room : RoomState) : RoomState :=
  fixDeckCounts (fixInitialCount (fixHandSize (fixLastPlay (fixPendingWire
    (fixTurnHolder (fixOwner (relabeledRoom room)))))))

/-! ### Basic association-list lemmas -/

theorem alookup_append {α : Type} (m m' : List (String × α)) (k : String) :
    alookup (m ++ m') k = ((alookup m k).rec (alookup m' k) (fun v => some v)) := by
  induction m with
  | nil => rfl
  | cons kv rest ih =>
    obtain ⟨a, b⟩ := kv
    by_cases h : a = k
    · simp [alookup, h]
    · simpa [alookup, h] using ih

theorem alookup_replace_self {α : Type} (m : List (String × α)) (k : String) (v : α) :
    alookup (m.map (fun kv => (kv.1, if kv.1 = k then v else kv.2))) k
      = if (alookup m k).isSome then some v else none := by
  induction m with
  | nil => rfl
  | cons kv rest ih =>
    obtain ⟨a, b⟩ := kv
    by_cases h : a = k
    · simp [alookup, h]
    · simpa [alookup, h] using ih

theorem alookup_replace_ne {α : Type} (m : List (String × α)) (k k' : String) (v : α)
    (h : k' ≠ k) :
    alookup (m.map (fun kv => (kv.1, if kv.1 = k then v else kv.2))) k' = alookup m k' := by
  induction m with
  | nil => rfl
  | cons kv rest ih =>
    obtain ⟨a, b⟩ := kv
    by_cases hk' : a = k'
    · have hne : a ≠ k := fun e => h (hk' ▸ e)
      simp [alookup, hk', hne]
      exact fun e => absurd e h
    · simpa [alookup, hk'] using ih

theorem alookup_update_self (ps : List (String × PlayerState)) (uid : String)
    (f : PlayerState → PlayerState) :
    alookup (updatePlayer ps uid f) uid = (alookup ps uid).map f := by
  induction ps with
  | nil => rfl
  | cons kv rest ih =>
    obtain ⟨a, b⟩ := kv
    by_cases h : a = uid
    · simp [updatePlayer, alookup, h]
    · simpa [updatePlayer, alookup, h] using ih

theorem alookup_update_ne (ps : List (String × PlayerState)) (uid uid' : String)
    (f : PlayerState → PlayerState) (h : uid' ≠ uid) :
    alookup (updatePlayer ps uid f) uid' = alookup ps uid' := by
  induction ps with
  | nil => rfl
  | cons kv rest ih =>
    obtain ⟨a, b⟩ := kv
    by_cases hk' : a = uid'
    · have hne : a ≠ uid := fun e => h (hk' ▸ e)
      simp [updatePlayer, alookup, hk', hne]
      exact fun e => absurd e h
    · simpa [updatePlayer, alookup, hk'] using ih

theorem alookup_dictInsert_self {α : Type} (m : List (String × α)) (k : String) (v : α) :
    alookup (dictInsert m k v) k = some v := by
  unfold dictInsert
  by_cases h : (alookup m k).isSome
  · rw [if_pos h, alookup_replace_self, if_pos h]
  · rw [if_neg h, alookup_append]
    cases hm : alookup m k with
    | some w => rw [hm] at h; simp at h
    | none => simp [alookup]

theorem alookup_dictInsert_ne {α : Type} (m : List (String × α)) (k k' : String) (v : α)
    (h : k' ≠ k) : alookup (dictInsert m k v) k' = alookup m k' := by
  unfold dictInsert
  by_cases hs : (alookup m k).isSome
  · rw [if_pos hs, alookup_replace_ne _ _ _ _ h]
  · rw [if_neg hs, alookup_append]
    cases hm : alookup m k' with
    | some w => rfl
    | none => simp [alookup, Ne.symm h]

/-! ### Alive-set and round-start lemmas -/

theorem isAliveIn_eq_true (players : List (String × PlayerState)) (uid : String) :
    isAliveIn players uid = true ↔
      ∃ p, alookup players uid = some p ∧ p.alive = true := by
  unfold isAliveIn
  cases h : alookup players uid with
  | none => simp
  | some p => simp

theorem mem_aliveIds (room : RoomState) (uid : String) :
    uid ∈ aliveIds room ↔
      uid ∈ room.order ∧ ∃ p, alookup room.players uid = some p ∧ p.alive = true := by
  unfold aliveIds
  rw [List.mem_filter, isAliveIn_eq_true]

/-- If two player dicts agree on the alive flag at every key, the alive test
agrees. -/
theorem isAliveIn_congr (ps ps' : List (String × PlayerState))
    (h : ∀ uid, (alookup ps' uid).map (fun p => p.alive)
        = (alookup ps uid).map (fun p => p.alive)) (uid : String) :
    isAliveIn ps' uid = isAliveIn ps uid := by
  unfold isAliveIn
  have := h uid
  cases h1 : alookup ps' uid with
  | none =>
    rw [h1] at this
    cases h2 : alookup ps uid with
    | none => rfl
    | some q => rw [h2] at this; simp at this
  | some q =>
    rw [h1] at this
    cases h2 : alookup ps uid with
    | none => rw [h2] at this; simp at this
    | some q' =>
      rw [h2] at this
      simpa using this

theorem alookup_mapVal {α : Type} (g : String → α → α) (m : List (String × α))
    (k : String) :
    alookup (m.map (fun kv => (kv.1, g kv.1 kv.2))) k = (alookup m k).map (g k) := by
  induction m with
  | nil => rfl
  | cons kv rest ih =>
    obtain ⟨a, b⟩ := kv
    by_cases h : a = k
    · subst h
      simp [alookup]
    · simpa [alookup, h] using ih

theorem alookup_clearOrderHands (room : RoomState) (uid : String) :
    alookup (clearOrderHands room) uid = (alookup room.players uid).map
      (fun p => if uid ∈ room.order then { p with hand := [] } else p) := by
  unfold clearOrderHands
  exact alookup_mapVal
    (fun u p => if u ∈ room.order then { p with hand := [] } else p) room.players uid

theorem alookup_dealHands_not_mem (hs : Nat) (alive : List String) (deck : List String)
    (ps : List (String × PlayerState)) (uid : String) (h : uid ∉ alive) :
    alookup (dealHands hs alive deck ps) uid = alookup ps uid := by
  induction alive generalizing deck ps with
  | nil => rfl
  | cons u rest ih =>
    have hne : uid ≠ u := fun e => h (e ▸ List.mem_cons_self u rest)
    have hrest : uid ∉ rest := fun hm => h (List.mem_cons_of_mem u hm)
    unfold dealHands
    rw [ih _ _ hrest, alookup_update_ne _ _ _ _ hne]

theorem alookup_dealHands_alive (hs : Nat) (alive : List String) (deck : List String)
    (ps : List (String × PlayerState)) (uid : String) :
    (alookup (dealHands hs alive deck ps) uid).map (fun p => p.alive)
      = (alookup ps uid).map (fun p => p.alive) := by
  induction alive generalizing deck ps with
  | nil => rfl
  | cons u rest ih =>
    unfold dealHands
    rw [ih]
    by_cases h : uid = u
    · subst h
      rw [alookup_update_self]
      cases alookup ps uid <;> rfl
    · rw [alookup_update_ne _ _ _ _ h]

/-- Alive flags pass through an `if`-guarded hand clearing. -/
theorem alive_of_clear (room : RoomState) (uid : String) (p : PlayerState) :
    (if uid ∈ room.order then { p with hand := ([] : List String) } else p).alive
      = p.alive := by
  by_cases h : uid ∈ room.order <;> simp [h]

/-- `_start_new_round_locked` never changes any player's alive flag. -/
theorem startNewRound_alive (cfg : Config) (env : Env) (r : RoomState) (uid : String) :
    (alookup (startNewRound cfg env r).room.players uid).map (fun p => p.alive)
      = (alookup r.players uid).map (fun p => p.alive) := by
  simp only [startNewRound]
  by_cases h1 : (aliveIds r).length ≤ 1
  · rw [if_pos h1]; rfl
  · rw [if_neg h1]
    by_cases h2 : env.deck.length < handSizeOf r * (aliveIds r).length
    · rw [if_pos h2]
      simp only []
      rw [alookup_clearOrderHands]
      cases alookup r.players uid with
      | none => rfl
      | some p => simp [alive_of_clear]
    · rw [if_neg h2]
      simp only []
      rw [alookup_dealHands_alive, alookup_clearOrderHands]
      cases alookup r.players uid with
      | none => rfl
      | some p => simp [alive_of_clear]

/-- A player already dead with an empty hand stays dead with an empty hand
through `_start_new_round_locked` (dead players are never dealt to). -/
theorem startNewRound_dead (cfg : Config) (env : Env) (r : RoomState) (uid : String)
    (p : PlayerState) (hp : alookup r.players uid = some p) (hd : p.alive = false)
    (hh : p.hand = []) :
    ∃ p', alookup (startNewRound cfg env r).room.players uid = some p'
      ∧ p'.alive = false ∧ p'.hand = [] := by
  have hmem : uid ∉ aliveIds r := by
    rw [mem_aliveIds]
    rintro ⟨-, q, hq, hqa⟩
    rw [hp] at hq
    cases hq
    rw [hd] at hqa
    exact Bool.false_ne_true hqa
  simp only [startNewRound]
  by_cases h1 : (aliveIds r).length ≤ 1
  · rw [if_pos h1]
    exact ⟨p, hp, hd, hh⟩
  · rw [if_neg h1]
    by_cases h2 : env.deck.length < handSizeOf r * (aliveIds r).length
    · rw [if_pos h2]
      simp only []
      rw [alookup_clearOrderHands, hp]
      refine ⟨_, rfl, ?_, ?_⟩
      · rw [alive_of_clear]; exact hd
      · by_cases h : uid ∈ r.order <;> simp [h, hh]
    · rw [if_neg h2]
      simp only []
      rw [alookup_dealHands_not_mem _ _ _ _ _ hmem, alookup_clearOrderHands, hp]
      refine ⟨_, rfl, ?_, ?_⟩
      · rw [alive_of_clear]; exact hd
      · by_cases h : uid ∈ r.order <;> simp [h, hh]

/-- When at least two players are alive and the shuffled deck covers the deal,
`_start_new_round_locked` actually starts a round: the action token is bumped
by one, the round counter advances, the phase is Playing and the room stays
open. -/
theorem startNewRound_starts (cfg : Config) (env : Env) (r : RoomState)
    (h1 : 2 ≤ (aliveIds r).length)
    (h2 : handSizeOf r * (aliveIds r).length ≤ env.deck.length) :
    (startNewRound cfg env r).room.action_token = r.action_token + 1
      ∧ (startNewRound cfg env r).room.round_no = r.round_no + 1
      ∧ (startNewRound cfg env r).room.phase = PHASE_PLAYING
      ∧ (startNewRound cfg env r).closed = false := by
  simp only [startNewRound]
  rw [if_neg (by omega), if_neg (by omega)]
  exact ⟨rfl, rfl, rfl, rfl⟩

/-- `_start_new_round_locked` leaves the phase alone in its finalize/abort
branches and sets Playing otherwise. -/
theorem startNewRound_phase (cfg : Config) (env : Env) (r : RoomState) :
    (startNewRound cfg env r).room.phase = r.phase
      ∨ (startNewRound cfg env r).room.phase = PHASE_PLAYING := by
  simp only [startNewRound]
  by_cases h1 : (aliveIds r).length ≤ 1
  · rw [if_pos h1]; exact Or.inl rfl
  · rw [if_neg h1]
    by_cases h2 : env.deck.length < handSizeOf r * (aliveIds r).length
    · rw [if_pos h2]; exact Or.inl rfl
    · rw [if_neg h2]; exact Or.inr rfl

/-! ### Claim theorems -/

/-- C3: for every integer starting player count, the locked deck composition's
counts sum to exactly the clamped player count times the fixed hand size 5. -/
theorem deck_counts_sum_eq_clamped_times_five (n : Int) :
    deckCountsSum (buildLockedDeckCounts n) = clampPlayers n * 5 := by
  have h : clampPlayers n = 3 ∨ clampPlayers n = 4 ∨ clampPlayers n = 5 := by
    unfold clampPlayers
    rcases le_total n 3 with h1 | h1
    · left; omega
    · rcases le_total n 5 with h2 | h2
      · have : min 5 n = n := min_eq_right h2
        omega
      · have : min 5 n = 5 := min_eq_left h2
        omega
  unfold buildLockedDeckCounts
  rcases h with h | h | h <;> rw [h] <;> decide

/-- C4 (counterexample): for a starting player count of 3 the locked
composition is NOT 4 sun / 4 moon / 4 star / 3 magic. -/
theorem deck_counts_three_players_not_4443 :
    ¬(alookupD (buildLockedDeckCounts 3) CARD_SUN 0 = 4
      ∧ alookupD (buildLockedDeckCounts 3) CARD_MOON 0 = 4
      ∧ alookupD (buildLockedDeckCounts 3) CARD_STAR 0 = 4
      ∧ alookupD (buildLockedDeckCounts 3) CARD_MAGIC 0 = 3) := by
  decide

/-- C4 (amended): for a starting player count of 3 the
proportional-weights-then-remainder rule yields 5 sun, 5 moon, 4 star and
1 magic over the 15-card total (all four fractional remainders tie at 0.5, so
the stable descending sort keeps the face order sun, moon, star, magic and the
two remainder cards go to sun and moon). -/
theorem deck_counts_three_players_5541 :
    buildLockedDeckCounts 3
      = [(CARD_SUN, 5), (CARD_MOON, 5), (CARD_STAR, 4), (CARD_MAGIC, 1)] := by
  decide

/-- C9: a wire cut for an unknown user id or with a color outside the offered
options is a complete no-op: the room is returned unchanged, it is not closed,
and no messages or hand refreshes are produced. -/
theorem wire_cut_invalid_is_noop (cfg : Config) (env : Env) (room : RoomState)
    (uid color : String) (bt : Bool)
    (h : alookup room.players uid = none ∨ color ∉ room.wire_options) :
    applyWireCut cfg env room uid color bt = noopResult room := by
  unfold applyWireCut
  cases hp : alookup room.players uid with
  | none => rfl
  | some p =>
    rcases h with h | h
    · rw [hp] at h; cases h
    · simp only [if_pos h]

/-- A sample configuration used by witness instantiations. -/
def sampleCfg : Config :=
  { play_timeout_seconds := 120, wire_timeout_seconds := 120, ai_max_play_cards := 3 }

/-- A sample environment used by witness instantiations: a 15-card shuffled
deck, the clock at 50. -/
def sampleEnv : Env :=
  { now := 50,
    deck := [CARD_SUN, CARD_SUN, CARD_SUN, CARD_SUN, CARD_SUN, CARD_MOON,
             CARD_MOON, CARD_MOON, CARD_MOON, CARD_MOON, CARD_STAR, CARD_STAR,
             CARD_STAR, CARD_STAR, CARD_MAGIC],
    target := CARD_MOON }

/-- A sample human player used by witness instantiations. -/
def samplePlayer (uid : String) (hand : List String) (bomb : String) : PlayerState :=
  { user_id := uid, name := uid, is_ai := false, ai_label := "", alive := true,
    hand := hand, bomb_color := bomb, wires_remaining := WIRE_COLORS,
    dm_reachable := false }

/-- A sample three-player room in the Playing phase used by witness
instantiations: target sun, `u1` holds the pending claim, `u2` to act. -/
def sampleRoom : RoomState :=
  { room_id := "g1", group_umo := "g1", group_id := "1", platform_id := "p",
    bot_id := "b", owner_id := "u1", owner_name := "u1", phase := PHASE_PLAYING,
    created_at := 0, updated_at := 0, started_at := 0, round_no := 1,
    dealer_cursor := 1,
    players := [("u1", samplePlayer "u1" [CARD_SUN, CARD_MAGIC] WIRE_RED),
                ("u2", samplePlayer "u2" [CARD_MOON, CARD_STAR] WIRE_BLUE),
                ("u3", samplePlayer "u3" [CARD_SUN, CARD_SUN] WIRE_YELLOW)],
    order := ["u1", "u2", "u3"], target_card := CARD_SUN,
    current_turn_user_id := "u2",
    last_play := some { player_id := "u1", cards := [CARD_SUN, CARD_MAGIC],
                        declared_target := CARD_SUN, played_at := 0 },
    pending_wire_user_id := "", wire_options := [], wire_index_map := [],
    initial_player_count := 3, fixed_hand_size := 5, round_deck_total := 15,
    round_deck_counts := [(CARD_SUN, 5), (CARD_MOON, 5), (CARD_STAR, 4), (CARD_MAGIC, 1)],
    play_deadline_ts := 100, wire_deadline_ts := 0, action_token := 7, ai_seq := 0 }

/-- `sampleRoom` shifted into the wire-cut phase: `u2` must cut, two options
offered. -/
def sampleRoomWire : RoomState :=
  { sampleRoom with
    phase := PHASE_AWAIT_WIRE, pending_wire_user_id := "u2",
    wire_options := [WIRE_RED, WIRE_BLUE], last_play := none,
    wire_deadline_ts := 100, play_deadline_ts := 0 }

/-- `sampleRoom` with a lying pending claim (a moon claimed under target sun). -/
def sampleRoomLie : RoomState :=
  { sampleRoom with
    last_play := some { player_id := "u1", cards := [CARD_MOON],
                        declared_target := CARD_SUN, played_at := 0 } }

/-- C9 witness: cutting the un-offered yellow wire in `sampleRoomWire` is a
no-op. -/
theorem wire_cut_invalid_is_noop_witness :
    applyWireCut sampleCfg sampleEnv sampleRoomWire "u2" WIRE_YELLOW false
      = noopResult sampleRoomWire := by
  exact wire_cut_invalid_is_noop sampleCfg sampleEnv sampleRoomWire "u2" WIRE_YELLOW false
    (Or.inr (by decide))

/-- A claim whose cards are all target or wild is not a lie. -/
theorem isLie_eq_false (t : String) (cards : List String)
    (h : ∀ c ∈ cards, c = t ∨ c = CARD_MAGIC) : isLie t cards = false := by
  unfold isLie
  rw [List.any_eq_false]
  intro c hc
  rcases h c hc with h' | h' <;> simp [h']

/-- A claim containing a card that is neither target nor wild is a lie. -/
theorem isLie_eq_true (t : String) (cards : List String)
    (h : ∃ c ∈ cards, c ≠ t ∧ c ≠ CARD_MAGIC) : isLie t cards = true := by
  unfold isLie
  rw [List.any_eq_true]
  obtain ⟨c, hc, h1, h2⟩ := h
  exact ⟨c, hc, by simp [h1, h2]⟩

/-- C1: resolving a challenge on a pending claim punishes by the bluff rule:
if every face-down card is the declared target face or the wild face, the
challenger becomes the pending wire-cut holder; if any card is neither, the
original claimant does (in both cases the room enters the wire-cut phase,
provided the punished player exists and is alive). -/
theorem challenge_punishes_by_bluff_rule (cfg : Config) (env : Env)
    (room : RoomState) (ch : String) (auto : Bool) (lp : LastPlay)
    (hlp : room.last_play = some lp) :
    ((∀ c ∈ lp.cards, c = room.target_card ∨ c = CARD_MAGIC) →
      ∀ q, alookup room.players ch = some q → q.alive = true →
        (resolveChallenge cfg env room ch auto).room.phase = PHASE_AWAIT_WIRE
          ∧ (resolveChallenge cfg env room ch auto).room.pending_wire_user_id = ch)
    ∧ ((∃ c ∈ lp.cards, c ≠ room.target_card ∧ c ≠ CARD_MAGIC) →
      ∀ q, alookup room.players lp.player_id = some q → q.alive = true →
        (resolveChallenge cfg env room ch auto).room.phase = PHASE_AWAIT_WIRE
          ∧ (resolveChallenge cfg env room ch auto).room.pending_wire_user_id
              = lp.player_id) := by
  constructor
  · intro htruth q hq hqa
    have hl : isLie room.target_card lp.cards = false := isLie_eq_false _ _ htruth
    simp only [resolveChallenge, hlp, hl]
    simp only [if_neg (show ¬(false = true) by decide), Bool.false_eq_true, if_false]
    rw [hq]
    simp [hqa]
  · intro hliar q hq hqa
    have hl : isLie room.target_card lp.cards = true := isLie_eq_true _ _ hliar
    simp only [resolveChallenge, hlp, hl]
    simp only [if_pos (show true = true from rfl), if_true]
    rw [hq]
    simp [hqa]

/-- C1 witness: in `sampleRoom` the pending claim (sun, magic vs target sun)
is truthful, so challenger `u2` is punished and enters the wire-cut phase;
in the lying variant (claim moon vs target sun) the claimant `u1` is. -/
theorem challenge_punishes_by_bluff_rule_witness :
    ((resolveChallenge sampleCfg sampleEnv sampleRoom "u2" false).room.phase
        = PHASE_AWAIT_WIRE
      ∧ (resolveChallenge sampleCfg sampleEnv sampleRoom "u2"
          false).room.pending_wire_user_id = "u2")
    ∧ ((resolveChallenge sampleCfg sampleEnv sampleRoomLie "u2" false).room.phase
        = PHASE_AWAIT_WIRE
      ∧ (resolveChallenge sampleCfg sampleEnv sampleRoomLie "u2"
          false).room.pending_wire_user_id = "u1") := by
  constructor
  · exact (challenge_punishes_by_bluff_rule sampleCfg sampleEnv sampleRoom "u2" false
      _ rfl).1 (by decide) _ rfl rfl
  · exact (challenge_punishes_by_bluff_rule sampleCfg sampleEnv sampleRoomLie "u2" false
      _ rfl).2 ⟨CARD_MOON, by decide, by decide, by decide⟩ _ rfl rfl

/-- C5: the room's `action_token` strictly increases on every transition that
changes the acting player or arms a new deadline — a successful play that
advances the turn, a challenge that opens the wire-cut window, and a round
start — and a play-timeout or wire-timeout handler fired with a stale captured
token returns without mutating any room state. -/
theorem action_token_strictly_increases_and_stale_timers_are_noops :
    (∀ (cfg : Config) (env : Env) (room : RoomState) (uid : String)
        (indices : List Int) (p : PlayerState) (norm : List Nat) (nxt : String),
      alookup room.players uid = some p → p.alive = true →
      normalizeIndices indices p.hand.length
        (if p.is_ai then aiMaxPlayCardsOf cfg else p.hand.length) = some norm →
      handAfterPlay norm p.hand ≠ [] →
      nextAliveAfter (roomAfterPlay env room uid p norm) uid = some nxt →
      room.action_token < (applyPlay cfg env room uid indices).room.action_token)
    ∧ (∀ (cfg : Config) (env : Env) (room : RoomState) (ch : String) (auto : Bool)
        (lp : LastPlay) (q : PlayerState),
      room.last_play = some lp →
      alookup room.players
        (if isLie room.target_card lp.cards then lp.player_id else ch) = some q →
      q.alive = true →
      room.action_token < (resolveChallenge cfg env room ch auto).room.action_token)
    ∧ (∀ (cfg : Config) (env : Env) (room : RoomState),
      2 ≤ (aliveIds room).length →
      handSizeOf room * (aliveIds room).length ≤ env.deck.length →
      room.action_token < (startNewRound cfg env room).room.action_token)
    ∧ (∀ (cfg : Config) (env : Env) (room : RoomState) (token : Int) (uid : String),
      token ≠ room.action_token →
      handlePlayTimeout cfg env room token uid = noopResult room)
    ∧ (∀ (cfg : Config) (env : Env) (room : RoomState) (token : Int)
        (uid picked : String),
      token ≠ room.action_token →
      handleWireTimeout cfg env room token uid picked = noopResult room) := by
  refine ⟨?_, ?_, ?_, ?_, ?_⟩
  · intro cfg env room uid indices p norm nxt hp halive hnorm hhand hnxt
    unfold applyPlay
    rw [hp]
    simp only [halive]
    rw [if_neg (by simp)]
    rw [hnorm]
    simp only [hnxt]
    rw [if_neg (by simpa [List.length_eq_zero] using hhand)]
    simp only [roomAfterPlay]
    omega
  · intro cfg env room ch auto lp q hlp hq hqa
    cases hli : isLie room.target_card lp.cards with
    | false =>
      rw [hli] at hq
      simp only [if_neg (show ¬(false = true) by decide)] at hq
      simp only [resolveChallenge, hlp, hli]
      simp only [if_neg (show ¬(false = true) by decide)]
      rw [hq]
      simp [hqa]
    | true =>
      rw [hli] at hq
      simp only [if_pos (show true = true from rfl)] at hq
      simp only [resolveChallenge, hlp, hli]
      rw [hq]
      simp [hqa]
  · intro cfg env room h1 h2
    have := (startNewRound_starts cfg env room h1 h2).1
    omega
  · intro cfg env room token uid h
    unfold handlePlayTimeout
    by_cases h1 : room.phase ≠ PHASE_PLAYING
    · rw [if_pos h1]
    · rw [if_neg h1, if_pos (Ne.symm h)]
  · intro cfg env room token uid picked h
    unfold handleWireTimeout
    by_cases h1 : room.phase ≠ PHASE_AWAIT_WIRE
    · rw [if_pos h1]
    · rw [if_neg h1, if_pos (Ne.symm h)]

/-- C5 witness: in `sampleRoom` (token 7) a play by `u2`, a challenge and a
round start each raise the token, and handlers fired with stale token 3 are
exact no-ops. -/
theorem action_token_strictly_increases_witness :
    (sampleRoom.action_token
        < (applyPlay sampleCfg sampleEnv sampleRoom "u2" [1]).room.action_token)
    ∧ (sampleRoom.action_token
        < (resolveChallenge sampleCfg sampleEnv sampleRoom "u2" false).room.action_token)
    ∧ (sampleRoom.action_token
        < (startNewRound sampleCfg sampleEnv sampleRoom).room.action_token)
    ∧ handlePlayTimeout sampleCfg sampleEnv sampleRoom 3 "u2" = noopResult sampleRoom
    ∧ handleWireTimeout sampleCfg sampleEnv sampleRoomWire 3 "u2" WIRE_RED
        = noopResult sampleRoomWire := by
  refine ⟨?_, ?_, ?_, ?_, ?_⟩
  · exact action_token_strictly_increases_and_stale_timers_are_noops.1
      sampleCfg sampleEnv sampleRoom "u2" [1]
      (samplePlayer "u2" [CARD_MOON, CARD_STAR] WIRE_BLUE) [1] "u3"
      (by decide) (by decide) (by decide) (by decide) (by decide)
  · exact action_token_strictly_increases_and_stale_timers_are_noops.2.1
      sampleCfg sampleEnv sampleRoom "u2" false
      { player_id := "u1", cards := [CARD_SUN, CARD_MAGIC],
        declared_target := CARD_SUN, played_at := 0 }
      (samplePlayer "u2" [CARD_MOON, CARD_STAR] WIRE_BLUE)
      (by decide) (by decide) (by decide)
  · exact action_token_strictly_increases_and_stale_timers_are_noops.2.2.1
      sampleCfg sampleEnv sampleRoom (by decide) (by decide)
  · exact action_token_strictly_increases_and_stale_timers_are_noops.2.2.2.1
      sampleCfg sampleEnv sampleRoom 3 "u2" (by decide)
  · exact action_token_strictly_increases_and_stale_timers_are_noops.2.2.2.2
      sampleCfg sampleEnv sampleRoomWire 3 "u2" WIRE_RED (by decide)

/-- The alive flag after a wire cut is `false` exactly when the cut exploded. -/
theorem playerAfterCut_alive (p : PlayerState) (color : String) (n : Nat) :
    (playerAfterCut p color n).alive
      = if color = p.bomb_color ∨ n = 1 then false else p.alive := by
  unfold playerAfterCut
  by_cases hw : color ∈ p.wires_remaining <;>
    by_cases hex : color = p.bomb_color ∨ n = 1 <;> simp [hw, hex]

/-- An exploded cut clears the hand. -/
theorem playerAfterCut_hand (p : PlayerState) (color : String) (n : Nat)
    (h : color = p.bomb_color ∨ n = 1) : (playerAfterCut p color n).hand = [] := by
  unfold playerAfterCut
  by_cases hw : color ∈ p.wires_remaining <;> simp [hw, h]

/-- C2: a wire cut by the pending holder with an offered color eliminates the
actor — alive turns false — precisely when the chosen color is their secret
bomb color or exactly one option was offered, and an elimination also clears
the hand; a safe cut leaves the actor alive through the next round start. -/
theorem wire_cut_eliminates_iff (cfg : Config) (env : Env) (room : RoomState)
    (uid color : String) (bt : Bool) (p : PlayerState)
    (hpend : room.pending_wire_user_id = uid)
    (hp : alookup room.players uid = some p)
    (halive : p.alive = true)
    (hcol : color ∈ room.wire_options) :
    ∃ p', alookup (applyWireCut cfg env room uid color bt).room.players uid = some p'
      ∧ (p'.alive = false ↔ (color = p.bomb_color ∨ room.wire_options.length = 1))
      ∧ ((color = p.bomb_color ∨ room.wire_options.length = 1) → p'.hand = []) := by
  have hnn : ¬(color ∉ room.wire_options) := not_not_intro hcol
  simp only [applyWireCut, hp, if_neg hnn]
  have hlook1 : alookup (roomAfterCut room uid
      (playerAfterCut p color room.wire_options.length)).players uid
      = some (playerAfterCut p color room.wire_options.length) := by
    simp only [roomAfterCut]
    rw [alookup_update_self, hp]
    rfl
  by_cases hfin : (aliveIds (roomAfterCut room uid
      (playerAfterCut p color room.wire_options.length))).length ≤ 1
  · rw [if_pos hfin]
    refine ⟨playerAfterCut p color room.wire_options.length, hlook1, ?_, ?_⟩
    · rw [playerAfterCut_alive]
      by_cases hex : color = p.bomb_color ∨ room.wire_options.length = 1
      · simp [hex]
      · simp [hex, halive]
    · intro hex
      exact playerAfterCut_hand _ _ _ hex
  · rw [if_neg hfin]
    by_cases hex : color = p.bomb_color ∨ room.wire_options.length = 1
    · have hdead : (playerAfterCut p color room.wire_options.length).alive = false := by
        rw [playerAfterCut_alive, if_pos hex]
      have hhand : (playerAfterCut p color room.wire_options.length).hand = [] :=
        playerAfterCut_hand _ _ _ hex
      obtain ⟨p', hp', ha', hh'⟩ := startNewRound_dead cfg env _ uid _ hlook1 hdead hhand
      exact ⟨p', hp', by simp [ha', hex], fun _ => hh'⟩
    · have h1 := startNewRound_alive cfg env
        (roomAfterCut room uid (playerAfterCut p color room.wire_options.length)) uid
      rw [hlook1] at h1
      have halive2 : (playerAfterCut p color room.wire_options.length).alive = true := by
        rw [playerAfterCut_alive, if_neg hex]
        exact halive
      rw [Option.map_some', halive2] at h1
      cases hres : alookup (startNewRound cfg env (roomAfterCut room uid
          (playerAfterCut p color room.wire_options.length))).room.players uid with
      | none => rw [hres] at h1; simp at h1
      | some p' =>
        rw [hres, Option.map_some'] at h1
        have hpa : p'.alive = true := by
          have := Option.some.inj h1
          exact this
        refine ⟨p', rfl, ?_, fun hx => absurd hx hex⟩
        simp [hpa, hex]

/-- C2 witness: in `sampleRoomWire` (two options offered) `u2` cutting blue —
their bomb color — is eliminated with a cleared hand, and the elimination
condition evaluates as the iff states. -/
theorem wire_cut_eliminates_iff_witness :
    ∃ p', alookup (applyWireCut sampleCfg sampleEnv sampleRoomWire "u2" WIRE_BLUE
        false).room.players "u2" = some p'
      ∧ (p'.alive = false ↔ (WIRE_BLUE = (samplePlayer "u2" [CARD_MOON, CARD_STAR]
          WIRE_BLUE).bomb_color ∨ sampleRoomWire.wire_options.length = 1))
      ∧ ((WIRE_BLUE = (samplePlayer "u2" [CARD_MOON, CARD_STAR]
          WIRE_BLUE).bomb_color ∨ sampleRoomWire.wire_options.length = 1) → p'.hand = []) := by
  exact wire_cut_eliminates_iff sampleCfg sampleEnv sampleRoomWire "u2" WIRE_BLUE false
    (samplePlayer "u2" [CARD_MOON, CARD_STAR] WIRE_BLUE)
    (by decide) (by decide) (by decide) (by decide)

/-- C6: a play deadline that fires validly (Playing phase, matching token,
named player still to act, deadline elapsed, player present and alive)
eliminates that player outright — alive set false and hand cleared, with the
room staying out of the wire-cut phase — and then a new round starts when at
least two players remain alive, while the match finalizes and the room is
removed when at most one remains. -/
theorem play_timeout_eliminates_outright (cfg : Config) (env : Env)
    (room : RoomState) (token : Int) (uid : String) (p : PlayerState)
    (hphase : room.phase = PHASE_PLAYING)
    (htok : room.action_token = token)
    (hturn : room.current_turn_user_id = uid)
    (hdl : ¬env.now < room.play_deadline_ts - (1 / 5 : Rat))
    (hp : alookup room.players uid = some p)
    (halive : p.alive = true) :
    (∃ p', alookup (handlePlayTimeout cfg env room token uid).room.players uid
        = some p' ∧ p'.alive = false ∧ p'.hand = [])
    ∧ (handlePlayTimeout cfg env room token uid).room.phase = PHASE_PLAYING
    ∧ (2 ≤ (aliveIds (elimPlayer room uid)).length →
        handSizeOf room * (aliveIds (elimPlayer room uid)).length ≤ env.deck.length →
        (handlePlayTimeout cfg env room token uid).room.round_no = room.round_no + 1
          ∧ (handlePlayTimeout cfg env room token uid).closed = false)
    ∧ ((aliveIds (elimPlayer room uid)).length ≤ 1 →
        (handlePlayTimeout cfg env room token uid).closed = true) := by
  have hlook1 : alookup (elimPlayer room uid).players uid
      = some { p with alive := false, hand := [] } := by
    simp only [elimPlayer]
    rw [alookup_update_self, hp]
    rfl
  have g1 : ¬(room.phase ≠ PHASE_PLAYING) := by simp [hphase]
  have g2 : ¬(room.action_token ≠ token) := by simp [htok]
  have g3 : ¬(room.current_turn_user_id ≠ uid) := by simp [hturn]
  have g4 : ¬(p.alive = false) := by simp [halive]
  simp only [handlePlayTimeout, if_neg g1, if_neg g2, if_neg g3, if_neg hdl, hp,
    if_neg g4]
  by_cases hfin : (aliveIds (elimPlayer room uid)).length ≤ 1
  · rw [if_pos hfin]
    refine ⟨⟨{ p with alive := false, hand := [] }, hlook1, rfl, rfl⟩, hphase, ?_, fun _ => rfl⟩
    intro h2 _
    omega
  · rw [if_neg hfin]
    refine ⟨?_, ?_, ?_, ?_⟩
    · exact startNewRound_dead cfg env (elimPlayer room uid) uid _ hlook1 rfl rfl
    · rcases startNewRound_phase cfg env (elimPlayer room uid) with h | h
      · rw [h]; exact hphase
      · exact h
    · intro h2 h3
      have := startNewRound_starts cfg env (elimPlayer room uid) h2 h3
      exact ⟨this.2.1, this.2.2.2⟩
    · intro h1
      omega

/-- C6 witness: in `sampleRoom` with the clock past the deadline, `u2`'s play
deadline fires, eliminates `u2` and starts round 2 with the room open. -/
theorem play_timeout_eliminates_outright_witness :
    ((∃ p', alookup (handlePlayTimeout sampleCfg { sampleEnv with now := 200 }
          sampleRoom 7 "u2").room.players "u2" = some p'
        ∧ p'.alive = false ∧ p'.hand = [])
      ∧ (handlePlayTimeout sampleCfg { sampleEnv with now := 200 }
          sampleRoom 7 "u2").room.phase = PHASE_PLAYING
      ∧ (2 ≤ (aliveIds (elimPlayer sampleRoom "u2")).length →
          handSizeOf sampleRoom * (aliveIds (elimPlayer sampleRoom "u2")).length
            ≤ ({ sampleEnv with now := 200 } : Env).deck.length →
          (handlePlayTimeout sampleCfg { sampleEnv with now := 200 }
              sampleRoom 7 "u2").room.round_no = sampleRoom.round_no + 1
            ∧ (handlePlayTimeout sampleCfg { sampleEnv with now := 200 }
                sampleRoom 7 "u2").closed = false)
      ∧ ((aliveIds (elimPlayer sampleRoom "u2")).length ≤ 1 →
          (handlePlayTimeout sampleCfg { sampleEnv with now := 200 }
              sampleRoom 7 "u2").closed = true)) := by
  exact play_timeout_eliminates_outright sampleCfg { sampleEnv with now := 200 }
    sampleRoom 7 "u2" (samplePlayer "u2" [CARD_MOON, CARD_STAR] WIRE_BLUE)
    rfl rfl rfl
    (show ¬(200 : Rat) < 100 - (1 / 5 : Rat) by norm_num) (by decide) (by decide)

theorem getD_mem {α : Type} (l : List α) (n : Nat) (d : α) (h : n < l.length) :
    l.getD n d ∈ l := by
  induction l generalizing n with
  | nil => simp at h
  | cons x xs ih =>
    cases n with
    | zero => simp [List.getD]
    | succ m =>
      have hm : m < xs.length := by simpa using h
      exact List.mem_cons_of_mem x (by simpa [List.getD] using ih m hm)

theorem headD_mem {α : Type} (l : List α) (d : α) (h : l ≠ []) : l.headD d ∈ l := by
  cases l with
  | nil => exact absurd rfl h
  | cons x xs => simp [List.headD]

/-- Whatever `_next_alive_after` returns is an alive member. -/
theorem nextAliveAfter_mem (room : RoomState) (u nxt : String)
    (h : nextAliveAfter room u = some nxt) : nxt ∈ aliveIds room := by
  unfold nextAliveAfter at h
  by_cases h1 : (aliveIds room).length ≤ 1
  · rw [if_pos h1] at h
    cases h
  · rw [if_neg h1] at h
    have hlen : 0 < (aliveIds room).length := by omega
    by_cases h2 : u ∈ aliveIds room
    · rw [if_pos h2] at h
      simp only [Option.some.injEq] at h
      subst h
      exact getD_mem _ _ _ (Nat.mod_lt _ hlen)
    · rw [if_neg h2] at h
      simp only [Option.some.injEq] at h
      subst h
      exact headD_mem _ _ (by intro e; rw [e] at hlen; simp at hlen)

/-- The wire-phase facts `_resolve_challenge_locked` establishes whenever the
punished player (claimant on a lie, challenger otherwise) exists and is
alive. -/
theorem resolveChallenge_wire_state (cfg : Config) (env : Env) (room : RoomState)
    (ch : String) (auto : Bool) (lp : LastPlay) (q : PlayerState)
    (hlp : room.last_play = some lp)
    (hq : alookup room.players
      (if isLie room.target_card lp.cards then lp.player_id else ch) = some q)
    (hqa : q.alive = true) :
    (resolveChallenge cfg env room ch auto).room.phase = PHASE_AWAIT_WIRE
    ∧ (resolveChallenge cfg env room ch auto).room.pending_wire_user_id
        = (if isLie room.target_card lp.cards then lp.player_id else ch)
    ∧ (resolveChallenge cfg env room ch auto).room.play_deadline_ts = 0
    ∧ (resolveChallenge cfg env room ch auto).room.current_turn_user_id
        = room.current_turn_user_id := by
  cases hli : isLie room.target_card lp.cards with
  | false =>
    rw [hli] at hq
    simp only [if_neg (show ¬(false = true) by decide)] at hq
    simp only [resolveChallenge, hlp, hli, if_neg (show ¬(false = true) by decide)]
    rw [hq]
    simp [hqa]
  | true =>
    rw [hli] at hq
    simp only [if_pos (show true = true from rfl)] at hq
    simp only [resolveChallenge, hlp, hli]
    rw [hq]
    simp [hqa]

/-- C7: a valid play that empties the actor's hand immediately resolves a
challenge on the just-recorded claim on behalf of the new turn holder: the
room goes straight to the wire-cut phase with the punished player chosen by
the bluff rule over the played cards, the play deadline is cleared rather
than re-armed, the next alive player is the recorded turn holder, and the
forced-showdown notice is emitted. -/
theorem empty_hand_forces_auto_challenge (cfg : Config) (env : Env)
    (room : RoomState) (uid : String) (indices : List Int) (p : PlayerState)
    (norm : List Nat) (nxt : String)
    (hp : alookup room.players uid = some p)
    (halive : p.alive = true)
    (hnorm : normalizeIndices indices p.hand.length
      (if p.is_ai then aiMaxPlayCardsOf cfg else p.hand.length) = some norm)
    (hempty : handAfterPlay norm p.hand = [])
    (hnxt : nextAliveAfter (roomAfterPlay env room uid p norm) uid = some nxt) :
    (applyPlay cfg env room uid indices).room.phase = PHASE_AWAIT_WIRE
    ∧ (applyPlay cfg env room uid indices).room.pending_wire_user_id
        = (if isLie room.target_card (playedCardsOf p norm) then uid else nxt)
    ∧ (applyPlay cfg env room uid indices).room.play_deadline_ts = 0
    ∧ (applyPlay cfg env room uid indices).room.current_turn_user_id = nxt
    ∧ Msg.autoChallengeNotice ∈ (applyPlay cfg env room uid indices).update.outbox := by
  have g4 : ¬(p.alive = false) := by simp [halive]
  simp only [applyPlay, hp, if_neg g4, hnorm, hnxt]
  rw [if_pos (by rw [hempty]; rfl)]
  have hqb : ∃ q, alookup ({ roomAfterPlay env room uid p norm with
        current_turn_user_id := nxt } : RoomState).players
      (if isLie room.target_card (playedCardsOf p norm) then uid else nxt) = some q
      ∧ q.alive = true := by
    by_cases hli : isLie room.target_card (playedCardsOf p norm) = true
    · rw [if_pos hli]
      refine ⟨{ p with hand := handAfterPlay norm p.hand }, ?_, halive⟩
      simp only [roomAfterPlay]
      rw [alookup_update_self, hp]
      rfl
    · rw [if_neg hli]
      have hmem := nextAliveAfter_mem _ _ _ hnxt
      rw [mem_aliveIds] at hmem
      obtain ⟨-, q, hq, hqa⟩ := hmem
      exact ⟨q, hq, hqa⟩
  obtain ⟨q, hq, hqa⟩ := hqb
  have hres := resolveChallenge_wire_state cfg env
    ({ roomAfterPlay env room uid p norm with current_turn_user_id := nxt } : RoomState)
    nxt true
    { player_id := uid, cards := playedCardsOf p norm,
      declared_target := room.target_card, played_at := env.now } q rfl hq hqa
  refine ⟨hres.1, hres.2.1, hres.2.2.1, hres.2.2.2, ?_⟩
  simp

/-- C7 witness: `u2` playing their whole hand in `sampleRoom` forces the
auto-challenge: the played moon/star cards are a lie against target sun, so
`u2` is punished, the wire phase opens at once and no play deadline stays
armed. -/
theorem empty_hand_forces_auto_challenge_witness :
    (applyPlay sampleCfg sampleEnv sampleRoom "u2" [1, 2]).room.phase
        = PHASE_AWAIT_WIRE
    ∧ (applyPlay sampleCfg sampleEnv sampleRoom "u2" [1, 2]).room.pending_wire_user_id
        = (if isLie sampleRoom.target_card
            (playedCardsOf (samplePlayer "u2" [CARD_MOON, CARD_STAR] WIRE_BLUE) [1, 2])
           then "u2" else "u3")
    ∧ (applyPlay sampleCfg sampleEnv sampleRoom "u2" [1, 2]).room.play_deadline_ts = 0
    ∧ (applyPlay sampleCfg sampleEnv sampleRoom "u2" [1, 2]).room.current_turn_user_id
        = "u3"
    ∧ Msg.autoChallengeNotice
        ∈ (applyPlay sampleCfg sampleEnv sampleRoom "u2" [1, 2]).update.outbox := by
  exact empty_hand_forces_auto_challenge sampleCfg sampleEnv sampleRoom "u2" [1, 2]
    (samplePlayer "u2" [CARD_MOON, CARD_STAR] WIRE_BLUE) [1, 2] "u3"
    (by decide) (by decide) (by decide) (by decide) (by decide)

/-! ### Snapshot round-trip and repair lemmas -/

theorem orEmptyList_eq {α : Type} (l : List α) : orEmptyList l = l := by
  cases l <;> rfl

theorem orEmptyMap_eq {α : Type} (m : List (String × α)) : orEmptyMap m = m := by
  cases m <;> rfl

theorem player_roundtrip (p : PlayerState) : playerFromDict (playerToDict p) = p := by
  cases p
  simp [playerToDict, playerFromDict, orEmptyList_eq]

theorem lastPlay_roundtrip (lp : LastPlay) : lastPlayFromDict (lastPlayToDict lp) = lp := by
  cases lp
  simp [lastPlayToDict, lastPlayFromDict, orEmptyList_eq]

theorem players_roundtrip (ps : List (String × PlayerState)) :
    (ps.map (fun kv => (kv.1, playerToDict kv.2))).map
      (fun kv => (kv.1, playerFromDict kv.2)) = ps := by
  induction ps with
  | nil => rfl
  | cons kv rest ih =>
    simp [player_roundtrip, ih]

theorem players_roundtrip_comp (ps : List (String × PlayerState)) :
    List.map ((fun kv => (kv.1, playerFromDict kv.2))
      ∘ (fun kv => (kv.1, playerToDict kv.2))) ps = ps := by
  rw [← List.map_map]
  exact players_roundtrip ps

theorem lastPlay_option_roundtrip (o : Option LastPlay) :
    Option.map (lastPlayFromDict ∘ lastPlayToDict) o = o := by
  cases o with
  | none => rfl
  | some lp => simp [Function.comp, lastPlay_roundtrip]

theorem fixTurnHolder_order (r : RoomState) : (fixTurnHolder r).order = r.order := by
  unfold fixTurnHolder
  split <;> rfl

theorem fixPendingWire_keeps (r : RoomState) :
    (fixPendingWire r).current_turn_user_id = r.current_turn_user_id
      ∧ (fixPendingWire r).order = r.order := by
  unfold fixPendingWire
  split <;> exact ⟨rfl, rfl⟩

theorem fixLastPlay_keeps (r : RoomState) :
    (fixLastPlay r).current_turn_user_id = r.current_turn_user_id
      ∧ (fixLastPlay r).order = r.order := by
  unfold fixLastPlay
  split
  · split <;> exact ⟨rfl, rfl⟩
  · exact ⟨rfl, rfl⟩

theorem fixHandSize_keeps (r : RoomState) :
    (fixHandSize r).current_turn_user_id = r.current_turn_user_id
      ∧ (fixHandSize r).order = r.order := by
  unfold fixHandSize
  split <;> exact ⟨rfl, rfl⟩

theorem fixInitialCount_keeps (r : RoomState) :
    (fixInitialCount r).current_turn_user_id = r.current_turn_user_id
      ∧ (fixInitialCount r).order = r.order := by
  unfold fixInitialCount
  split <;> exact ⟨rfl, rfl⟩

theorem fixDeckCounts_keeps (r : RoomState) :
    (fixDeckCounts r).current_turn_user_id = r.current_turn_user_id
      ∧ (fixDeckCounts r).order = r.order := by
  unfold fixDeckCounts
  split <;> exact ⟨rfl, rfl⟩

theorem relabelStep_isNone (st : RelabelState) (u x : String) :
    (alookup (relabelStep st u).players x).isNone = (alookup st.players x).isNone := by
  unfold relabelStep
  cases h : alookup st.players u with
  | none => rfl
  | some p =>
    by_cases hai : p.is_ai = true
    · simp only [if_pos hai]
      by_cases hx : x = u
      · subst hx
        rw [alookup_update_self, h]
        rfl
      · rw [alookup_update_ne _ _ _ _ hx]
    · simp only [if_neg hai]
      by_cases hx : x = u
      · subst hx
        rw [alookup_update_self, h]
        rfl
      · rw [alookup_update_ne _ _ _ _ hx]

theorem foldl_relabel_isNone (order : List String) (st : RelabelState) (x : String) :
    (alookup (order.foldl relabelStep st).players x).isNone
      = (alookup st.players x).isNone := by
  induction order generalizing st with
  | nil => rfl
  | cons u rest ih => rw [List.foldl_cons, ih, relabelStep_isNone]

theorem relabeledRoom_players_isNone (room : RoomState) (x : String) :
    (alookup (relabeledRoom room).players x).isNone
      = (alookup room.players x).isNone := by
  unfold relabeledRoom relabelAll
  exact foldl_relabel_isNone _ _ _

/-- C8: serializing a room to its dictionary snapshot and deserializing it
back yields the identical room; and loading a snapshot whose (non-empty)
current turn holder id has no player record produces a valid room whose turn
holder is reset to the first member of the repaired order, or empty when
there are no members. -/
theorem snapshot_roundtrip_and_dangling_turn_repair :
    (∀ r : RoomState, roomFromDict (roomToDict r) = r)
    ∧ (∀ r : RoomState, r.current_turn_user_id ≠ "" →
        alookup r.players r.current_turn_user_id = none →
        (normalizeRoomState r).current_turn_user_id
          = (normalizeRoomState r).order.headD "") := by
  constructor
  · intro r
    cases r
    simp [roomToDict, roomFromDict, orEmptyList_eq, orEmptyMap_eq,
      players_roundtrip_comp, lastPlay_option_roundtrip]
  · intro r h1 h2
    have hfo_turn : (fixOwner (relabeledRoom r)).current_turn_user_id
        = r.current_turn_user_id := rfl
    have hnone : (alookup (fixOwner (relabeledRoom r)).players
        r.current_turn_user_id).isNone = true := by
      show (alookup (relabeledRoom r).players r.current_turn_user_id).isNone = true
      rw [relabeledRoom_players_isNone, h2]
      rfl
    have hcond : (fixOwner (relabeledRoom r)).current_turn_user_id ≠ ""
        ∧ (alookup (fixOwner (relabeledRoom r)).players
            (fixOwner (relabeledRoom r)).current_turn_user_id).isNone := by
      refine ⟨?_, ?_⟩
      · rw [hfo_turn]; exact h1
      · rw [hfo_turn]; exact hnone
    have hreset : (fixTurnHolder (fixOwner (relabeledRoom r))).current_turn_user_id
        = (fixOwner (relabeledRoom r)).order.headD "" := by
      unfold fixTurnHolder
      rw [if_pos hcond]
    unfold normalizeRoomState
    rw [(fixDeckCounts_keeps _).1, (fixInitialCount_keeps _).1, (fixHandSize_keeps _).1,
      (fixLastPlay_keeps _).1, (fixPendingWire_keeps _).1, hreset]
    rw [(fixDeckCounts_keeps _).2, (fixInitialCount_keeps _).2, (fixHandSize_keeps _).2,
      (fixLastPlay_keeps _).2, (fixPendingWire_keeps _).2, fixTurnHolder_order]

/-- C8 witness: the three-player `sampleRoom` survives the dictionary round
trip unchanged, and a corrupted variant whose turn holder is a dangling
`"ghost"` id reloads with the turn holder reset to the repaired order's
first member. -/
theorem snapshot_roundtrip_and_dangling_turn_repair_witness :
    roomFromDict (roomToDict sampleRoom) = sampleRoom
    ∧ (normalizeRoomState { sampleRoom with current_turn_user_id := "ghost" }).current_turn_user_id
        = (normalizeRoomState { sampleRoom with
            current_turn_user_id := "ghost" }).order.headD "" := by
  constructor
  · exact snapshot_roundtrip_and_dangling_turn_repair.1 sampleRoom
  · exact snapshot_roundtrip_and_dangling_turn_repair.2
      { sampleRoom with current_turn_user_id := "ghost" } (by decide) (by decide)

/-! ### Membership-index lemmas -/

theorem addAISeats_preserves_ai (room : RoomState) (seats : List AISeed) (u : String)
    (h : ∃ q, alookup room.players u = some q ∧ q.is_ai = true) :
    ∃ q, alookup (addAISeats room seats).players u = some q ∧ q.is_ai = true := by
  induction seats generalizing room with
  | nil => exact h
  | cons s rest ih =>
    unfold addAISeats
    rw [List.foldl_cons]
    refine ih _ ?_
    obtain ⟨q, hq, hai⟩ := h
    by_cases hu : u = s.uid
    · subst hu
      exact ⟨mkAIPlayer s, by simp [alookup_dictInsert_self], rfl⟩
    · exact ⟨q, by simpa [alookup_dictInsert_ne _ _ _ _ hu] using hq, hai⟩

theorem addAISeats_inserts_ai (room : RoomState) (seats : List AISeed) (s : AISeed) :
    s ∈ seats →
    ∃ q, alookup (addAISeats room seats).players s.uid = some q ∧ q.is_ai = true := by
  induction seats generalizing room with
  | nil =>
    intro h
    cases h
  | cons t rest ih =>
    intro h
    have step : addAISeats room (t :: rest) = addAISeats { room with
        players := dictInsert room.players t.uid (mkAIPlayer t),
        order := room.order ++ [t.uid] } rest := rfl
    rw [step]
    rcases List.mem_cons.mp h with h1 | h1
    · subst h1
      refine addAISeats_preserves_ai _ rest s.uid ?_
      exact ⟨mkAIPlayer s, by simp [alookup_dictInsert_self], rfl⟩
    · exact ih _ h1

theorem rebuildIndexRoom_prop (Q : String → Prop) (room : RoomState)
    (hroom : ∀ uid p, alookup room.players uid = some p → p.is_ai = false → Q uid) :
    ∀ (l : List String) (idx : List (String × String)),
      (∀ uid rid, alookup idx uid = some rid → Q uid) →
      ∀ uid rid,
        alookup (l.foldl (fun acc uid =>
          match alookup room.players uid with
          | some p => if p.is_ai then acc else dictInsert acc uid room.room_id
          | none => acc) idx) uid = some rid → Q uid := by
  intro l
  induction l with
  | nil => intro idx hidx uid rid h; exact hidx uid rid h
  | cons u rest ih =>
    intro idx hidx uid rid h
    rw [List.foldl_cons] at h
    refine ih _ ?_ uid rid h
    intro uid' rid' h'
    cases hu : alookup room.players u with
    | none =>
      simp only [hu] at h'
      exact hidx uid' rid' h'
    | some p =>
      simp only [hu] at h'
      by_cases hai : p.is_ai
      · rw [if_pos hai] at h'
        exact hidx uid' rid' h'
      · rw [if_neg hai] at h'
        by_cases he : uid' = u
        · subst he
          exact hroom uid' p hu (by simpa using hai)
        · rw [alookup_dictInsert_ne _ _ _ _ he] at h'
          exact hidx uid' rid' h'

theorem rebuildIndex_fold_prop (rooms : List (String × RoomState)) :
    ∀ (rs : List (String × RoomState)) (idx : List (String × String)),
      (∀ kv, kv ∈ rs → kv ∈ rooms) →
      (∀ uid rid, alookup idx uid = some rid →
        ∃ kv ∈ rooms, ∃ p, alookup kv.2.players uid = some p ∧ p.is_ai = false) →
      ∀ uid rid, alookup (rs.foldl (fun acc kv => rebuildIndexRoom acc kv.2) idx) uid
          = some rid →
        ∃ kv ∈ rooms, ∃ p, alookup kv.2.players uid = some p ∧ p.is_ai = false := by
  intro rs
  induction rs with
  | nil => intro idx _ hidx uid rid h; exact hidx uid rid h
  | cons kv rest ih =>
    intro idx hmem hidx uid rid h
    rw [List.foldl_cons] at h
    refine ih _ (fun kv' h' => hmem kv' (List.mem_cons_of_mem kv h')) ?_ uid rid h
    intro uid' rid' h'
    exact rebuildIndexRoom_prop
      (fun u => ∃ kv ∈ rooms, ∃ p, alookup kv.2.players u = some p ∧ p.is_ai = false)
      kv.2
      (fun u p hp hai => ⟨kv, hmem kv (List.mem_cons_self kv rest), p, hp, hai⟩)
      kv.2.order idx hidx uid' rid' h'

/-- C10: the player-to-room membership index only ever holds human players:
the add-AI command extends the room's players and order with the new AI seats
but never writes the index, and the index rebuilt on state load maps a user id
only when some loaded room holds that id as a non-AI player — so an AI seat id
can never collide through the index. -/
theorem membership_index_only_humans :
    (∀ (reg : Registry) (room_id user_id : String) (count : Nat)
        (seeds : List AISeed),
      (cmdAddAI reg room_id user_id count seeds).index = reg.index)
    ∧ (∀ (room : RoomState) (seats : List AISeed),
      (addAISeats room seats).order = room.order ++ seats.map (fun s => s.uid))
    ∧ (∀ (room : RoomState) (seats : List AISeed) (s : AISeed), s ∈ seats →
      ∃ q, alookup (addAISeats room seats).players s.uid = some q ∧ q.is_ai = true)
    ∧ (∀ (rooms : List (String × RoomState)) (uid rid : String),
      alookup (rebuildIndex rooms) uid = some rid →
      ∃ kv ∈ rooms, ∃ p, alookup kv.2.players uid = some p ∧ p.is_ai = false) := by
  refine ⟨?_, ?_, ?_, ?_⟩
  · intro reg room_id user_id count seeds
    simp only [cmdAddAI]
    repeat' split
    all_goals rfl
  · intro room seats
    induction seats generalizing room with
    | nil => simp [addAISeats]
    | cons s rest ih =>
      unfold addAISeats
      rw [List.foldl_cons]
      have := ih { room with
        players := dictInsert room.players s.uid (mkAIPlayer s),
        order := room.order ++ [s.uid] }
      unfold addAISeats at this
      rw [this]
      simp
  · intro room seats s hs
    exact addAISeats_inserts_ai room seats s hs
  · intro rooms uid rid h
    unfold rebuildIndex at h
    refine rebuildIndex_fold_prop rooms rooms [] (fun kv h' => h') ?_ uid rid ?_
    · intro uid' rid' h'
      cases h'
    · exact h

/-- A sample AI seed used by witness instantiations. -/
def sampleSeed : AISeed := { uid := "ai1", name := "AI-1", bomb := WIRE_RED }

/-- `sampleRoom` still in the Waiting phase (where AI seats may be added). -/
def sampleRoomWaiting : RoomState := { sampleRoom with phase := PHASE_WAITING }

/-- A sample registry holding the waiting room with its three human members
indexed. -/
def sampleReg : Registry :=
  { rooms := [("g1", sampleRoomWaiting)],
    index := [("u1", "g1"), ("u2", "g1"), ("u3", "g1")] }

/-- `sampleRoom` extended with one AI seat (for the index-rebuild check). -/
def sampleRoomWithAI : RoomState :=
  { sampleRoom with
    players := sampleRoom.players ++ [("ai1", mkAIPlayer sampleSeed)],
    order := sampleRoom.order ++ ["ai1"] }

/-- C10 witness: adding an AI seat to the sample registry leaves the index
untouched while the seat lands in players and order, and the index rebuilt
from a room containing an AI seat maps `u1` only through its human record. -/
theorem membership_index_only_humans_witness :
    (cmdAddAI sampleReg "g1" "u1" 1 [sampleSeed]).index = sampleReg.index
    ∧ (addAISeats sampleRoomWaiting [sampleSeed]).order
        = sampleRoomWaiting.order ++ [sampleSeed].map (fun s => s.uid)
    ∧ (∃ q, alookup (addAISeats sampleRoomWaiting [sampleSeed]).players
        sampleSeed.uid = some q ∧ q.is_ai = true)
    ∧ (∃ kv ∈ [("g1", sampleRoomWithAI)], ∃ p,
        alookup kv.2.players "u1" = some p ∧ p.is_ai = false) := by
  refine ⟨?_, ?_, ?_, ?_⟩
  · exact membership_index_only_humans.1 sampleReg "g1" "u1" 1 [sampleSeed]
  · exact membership_index_only_humans.2.1 sampleRoomWaiting [sampleSeed]
  · exact membership_index_only_humans.2.2.1 sampleRoomWaiting [sampleSeed]
      sampleSeed (by decide)
  · exact membership_index_only_humans.2.2.2 [("g1", sampleRoomWithAI)] "u1" "g1"
      (by decide)

end LiarsBar
